import Mathlib

/-!
Verification of the data-collection core of `basketball_data.py`
(class `BasketballDataCollector` and its helpers), as a shallow
embedding in Lean 4.

Python dictionaries whose values are dynamic JSON data are embedded as
association lists over a JSON-like value type `Val`; records whose field
set is fixed by the code that touches them (games, betting lines, team
stats rows) are embedded as Lean structures carrying exactly the fields
the modelled code reads.  Machine floats never matter to the modelled
code paths, so numbers are embedded as `Int`.
-/

set_option autoImplicit false

namespace BBall

/-- A JSON-like dynamic value, the shape of the data the Python code
moves around (`json.load` output).  Numbers are embedded as `Int`. -/
inductive Val where
  | vnull : Val
  | vbool (b : Bool) : Val
  | vint (n : Int) : Val
  | vstr (s : String) : Val
  | vlist (elems : List Val) : Val
  | vobj (fields : List (String × Val)) : Val
deriving Repr

/-- Python `isinstance(elem, (int, float, str, bool))`, the scalar test
used by `flatten_data` on list elements.  `None` is not a scalar. -/
def isScalar : Val → Bool
  | .vbool _ => true
  | .vint _ => true
  | .vstr _ => true
  | _ => false

/-- Python `str(...)` on the scalar values that can reach the
`','.join(map(str, v))` branch of `flatten_data`. -/
def pyStr : Val → String
  | .vbool b => if b then "True" else "False"
  | .vint n => toString n
  | .vstr s => s
  | .vnull => "None"
  | .vlist _ => ""
  | .vobj _ => ""

/-- Escaping of `"` and `\` inside a JSON string literal, the part of
Python `json.dumps` string escaping the modelled data can exercise. -/
def jsonEscape (s : String) : String :=
  String.join (s.data.map fun c =>
    if c = '"' then "\\\"" else if c = '\\' then "\\\\" else String.singleton c)

mutual

/-- Python `json.dumps` with its default separators, restricted to the
embedded value type (used by `flatten_data` for lists of non-scalars). -/
def jsonDumps : Val → String
  | .vnull => "null"
  | .vbool b => if b then "true" else "false"
  | .vint n => toString n
  | .vstr s => "\"" ++ jsonEscape s ++ "\""
  | .vlist elems => "[" ++ jsonDumpsList elems ++ "]"
  | .vobj fields => "\x7b" ++ jsonDumpsFields fields ++ "\x7d"

/-- Comma-separated serialization of the elements of a JSON array. -/
def jsonDumpsList : List Val → String
  | [] => ""
  | [v] => jsonDumps v
  | v :: rest => jsonDumps v ++ ", " ++ jsonDumpsList rest

/-- Comma-separated serialization of the members of a JSON object. -/
def jsonDumpsFields : List (String × Val) → String
  | [] => ""
  | [(k, v)] => "\"" ++ jsonEscape k ++ "\": " ++ jsonDumps v
  | (k, v) :: rest =>
      "\"" ++ jsonEscape k ++ "\": " ++ jsonDumps v ++ ", " ++ jsonDumpsFields rest

end

/-- Python dict assignment `d[k] = v`: overwrite in place if the key is
present, otherwise append at the end (insertion order is preserved). -/
def dictInsert {α : Type} (m : List (String × α)) (k : String) (v : α) :
    List (String × α) :=
  if m.any (fun p => p.1 = k) then
    m.map (fun p => if p.1 = k then (k, v) else p)
  else
    m ++ [(k, v)]

/-- Python `d.update(other)`: assign every entry of `other` in order. -/
def dictUpdate {α : Type} (m other : List (String × α)) : List (String × α) :=
  other.foldl (fun acc p => dictInsert acc p.1 p.2) m

/-- Python `k in d` on a dict embedded as an association list. -/
def dictHas {α : Type} (m : List (String × α)) (k : String) : Bool :=
  m.any (fun p => p.1 = k)

/-- Python `d.get(k)` (first binding wins; embedded dicts built through
`dictInsert` have distinct keys, so this is the binding). -/
def dictGet {α : Type} (m : List (String × α)) (k : String) : Option α :=
  (m.find? (fun p => p.1 = k)).map Prod.snd

/- ### Games and their deduplication

`collect_comprehensive_data` merges the per-team games lists with

    for team_games in games_results.values():
        if team_games:
            for game in team_games:
                game_id = game.get('id')
                if game_id and game_id not in seen_game_ids:
                    seen_game_ids.add(game_id)
                    all_games.append(game)
-/

/-- A game record, carrying the fields of the `games` endpoint that the
modelled code reads (`id`, team names, points, status).  `id` is
`Option Int`: `game.get('id')` yields `None` when the key is absent. -/
structure Game where
  id : Option Int
  homeTeam : String
  awayTeam : String
  homePoints : Option Int
  awayPoints : Option Int
  status : String
deriving Repr, DecidableEq

/-- Python truthiness of `game.get('id')`: `None` and `0` are falsy. -/
def idTruthy : Option Int → Bool
  | none => false
  | some n => !(n == 0)

/-- The inner dedup loop of `collect_comprehensive_data` over one
per-team games list, threading the `seen_game_ids` set (embedded as a
list used only through membership) and returning the games appended to
`all_games` together with the updated set. -/
def dedupGames : List Game → List Int → List Game × List Int
  | [], seen => ([], seen)
  | g :: gs, seen =>
      match g.id with
      | none => dedupGames gs seen
      | some gid =>
          if gid ≠ 0 ∧ gid ∉ seen then
            let rec_ := dedupGames gs (gid :: seen)
            (g :: rec_.1, rec_.2)
          else
            dedupGames gs seen

/-- The outer loop over `games_results.values()`: the Python guard
`if team_games:` skips empty (falsy) lists. -/
def collectGamesAux : List (List Game) → List Int → List Game × List Int
  | [], seen => ([], seen)
  | tg :: rest, seen =>
      if tg.isEmpty then collectGamesAux rest seen
      else
        let d := dedupGames tg seen
        let r := collectGamesAux rest d.2
        (d.1 ++ r.1, r.2)

/-- `all_games` as built by `collect_comprehensive_data` from the values
of `games_results` (starting from the empty `seen_game_ids` set). -/
def collectGames (results : List (List Game)) : List Game :=
  (collectGamesAux results []).1

/- ### Betting lines and their deduplication

    for team_lines in betting_results.values():
        if team_lines:
            for line in team_lines:
                line_id = (str(line.get('gameId', '')), str(line.get('provider', '')))
                if line_id not in seen_betting_line_ids:
                    seen_betting_line_ids.add(line_id)
                    all_betting_lines.append(line)
-/

/-- A betting-line record with the fields the modelled code and the
spec mention.  `gameId` is an optional integer and `provider` an
optional string; `line.get(k, '')` defaults them to `''`. -/
structure BettingLine where
  gameId : Option Int
  openDate : String
  homeTeam : String
  awayTeam : String
  provider : Option String
deriving Repr, DecidableEq

/-- `str(line.get('gameId', ''))`. -/
def gameIdStr : Option Int → String
  | none => ""
  | some n => toString n

/-- `str(line.get('provider', ''))`. -/
def providerStr : Option String → String
  | none => ""
  | some s => s

/-- The dedup key `line_id` actually computed by the code: the pair
`(str(gameId), str(provider))`. -/
def lineKey (l : BettingLine) : String × String :=
  (gameIdStr l.gameId, providerStr l.provider)

/-- The inner dedup loop over one per-team betting-lines list. -/
def dedupLines : List BettingLine → List (String × String) →
    List BettingLine × List (String × String)
  | [], seen => ([], seen)
  | l :: ls, seen =>
      if lineKey l ∉ seen then
        let rec_ := dedupLines ls (lineKey l :: seen)
        (l :: rec_.1, rec_.2)
      else
        dedupLines ls seen

/-- The outer loop over `betting_results.values()` (the Python guard
`if team_lines:` skips empty lists). -/
def collectLinesAux : List (List BettingLine) → List (String × String) →
    List BettingLine × List (String × String)
  | [], seen => ([], seen)
  | tl :: rest, seen =>
      if tl.isEmpty then collectLinesAux rest seen
      else
        let d := dedupLines tl seen
        let r := collectLinesAux rest d.2
        (d.1 ++ r.1, r.2)

/-- `all_betting_lines` as built by `collect_comprehensive_data`. -/
def collectLines (results : List (List BettingLine)) : List BettingLine :=
  (collectLinesAux results []).1

/- ### Team stats aggregation

    for team_stats in stats_results.values():
        if team_stats:
            all_stats.extend(team_stats)
-/

/-- A team-season-stats row: the `team` field (the only one the modelled
code inspects) plus the remaining payload as raw fields. -/
structure TeamStat where
  team : String
  payload : List (String × Val)

/-- `all_stats` as built by `collect_comprehensive_data`: plain
concatenation of the non-empty per-team results, no dedup. -/
def mergeStats (results : List (List TeamStat)) : List TeamStat :=
  results.foldl (fun acc ts => if ts.isEmpty then acc else acc ++ ts) []

/- ### Flattening (`flatten_data` inside `_save_data_with_progress`, and
its identical copy inside `_save_games_by_team`)

    def flatten_data(d, parent_key='', sep='_'):
        items = {}
        for k, v in d.items():
            new_key = f"{parent_key}{sep}{k}" if parent_key else k
            if v is None:
                items[new_key] = ""
            elif isinstance(v, dict):
                items.update(flatten_data(v, new_key, sep=sep))
            elif isinstance(v, list):
                if all(isinstance(elem, (int, float, str, bool)) for elem in v):
                    items[new_key] = ','.join(map(str, v))
                else:
                    items[new_key] = json.dumps(v)
            else:
                items[new_key] = v
        return items
-/

/-- The loop body of `flatten_data`, threading the `items` dict. -/
def flattenAux : List (String × Val) → String → List (String × Val) →
    List (String × Val)
  | [], _, items => items
  | (k, v) :: rest, parentKey, items =>
      let newKey := if parentKey = "" then k else parentKey ++ "_" ++ k
      match v with
      | .vnull => flattenAux rest parentKey (dictInsert items newKey (.vstr ""))
      | .vobj fields =>
          flattenAux rest parentKey (dictUpdate items (flattenAux fields newKey []))
      | .vlist elems =>
          if elems.all isScalar then
            flattenAux rest parentKey
              (dictInsert items newKey (.vstr (String.intercalate "," (elems.map pyStr))))
          else
            flattenAux rest parentKey
              (dictInsert items newKey (.vstr (jsonDumps (.vlist elems))))
      | x => flattenAux rest parentKey (dictInsert items newKey x)

/-- `flatten_data(d)` with the default `parent_key=''`. -/
def flatten_data (d : List (String × Val)) : List (String × Val) :=
  flattenAux d "" []

/- ### CSV headers and row padding -/

/-- Python `sorted(...)` on strings: a stable comparison sort by `≤`
(code-point lexicographic order). -/
def sortStrings (l : List String) : List String :=
  l.insertionSort (· ≤ ·)

/-- The union of all flattened keys across all rows (`header_set`).
Python collects them in a set; the embedding keeps the first occurrence
of each key, which has the same members. -/
def headerSet (rows : List (List (String × Val))) : List String :=
  ((rows.map (fun row => row.map Prod.fst)).flatten).dedup

/-- `priority_headers = ['team', 'season', 'conference']`. -/
def priority_headers : List String := ["team", "season", "conference"]

/-- The CSV header list of `_save_data_with_progress`: the priority
headers that occur, then the remaining keys sorted alphabetically. -/
def csv_headers (rows : List (List (String × Val))) : List String :=
  let hs := headerSet rows
  (priority_headers.filter (fun h => hs.contains h)) ++
    sortStrings (hs.filter (fun h => ¬ priority_headers.contains h))

/-- The CSV header list of `_save_games_by_team`: all keys, sorted. -/
def team_csv_headers (rows : List (List (String × Val))) : List String :=
  sortStrings (headerSet rows)

/-- The row-padding loop shared by both savers:
`for header in csv_headers: if header not in item: item[header] = fill`. -/
def padWith (fill : Val) (headers : List String) (row : List (String × Val)) :
    List (String × Val) :=
  headers.foldl
    (fun item h => if dictHas item h then item else dictInsert item h fill) row

/-- Row padding in `_save_data_with_progress`: every missing header is
filled with `None`. -/
def padRow (headers : List String) (row : List (String × Val)) :
    List (String × Val) :=
  padWith .vnull headers row

/-- Row padding in `_save_games_by_team`: every missing header is
filled with the empty string. -/
def padRowTeam (headers : List String) (row : List (String × Val)) :
    List (String × Val) :=
  padWith (.vstr "") headers row

/-- The filename sanitizer of `_save_games_by_team`:
`''.join(c for c in team if c.isalnum() or c in (' ', '_', '-')).rstrip().replace(' ', '_')`. -/
def safe_team (t : String) : String :=
  let kept := t.data.filter (fun c => c.isAlphanum || c = ' ' || c = '_' || c = '-')
  let stripped := (kept.reverse.dropWhile (fun c => c = ' ')).reverse
  String.mk (stripped.map (fun c => if c = ' ' then '_' else c))

/- ### Request formatting (`_make_request`) -/

/-- Python `str.lower()` restricted to ASCII, the alphabet the status
enumeration uses. -/
def pyLower (s : String) : String :=
  String.mk (s.data.map Char.toLower)

/-- `valid_statuses` from `_make_request`. -/
def valid_statuses : List String :=
  ["scheduled", "in_progress", "final", "postponed", "cancelled"]

/-- `_format_season`: numeric strings are normalized through `int(...)`,
anything else is passed through unchanged. -/
def format_season (s : String) : String :=
  match s.toInt? with
  | some n => toString n
  | none => s

/-- The parameter-formatting loop of `_make_request`: entries with value
`None` are dropped, `season` is normalized, `team` passes through,
`status` is lowercased and validated against `valid_statuses` (an
invalid status aborts the whole call, modelled as `none`), everything
else passes through. -/
def format_params : List (String × Option String) → Option (List (String × String))
  | [] => some []
  | (k, v) :: rest =>
      match v with
      | none => format_params rest
      | some s =>
          if k = "season" then
            (format_params rest).map (fun r => (k, format_season s) :: r)
          else if k = "team" then
            (format_params rest).map (fun r => (k, s) :: r)
          else if k = "status" then
            let sv := (pyLower s)
            if valid_statuses.contains sv then
              (format_params rest).map (fun r => (k, sv) :: r)
            else none
          else (format_params rest).map (fun r => (k, s) :: r)

/-- `_make_request`: format the parameters; on a validation failure
return `None` without touching the network, otherwise issue exactly one
GET (the second component lists the requests actually sent; `net`
subsumes transport retries, the 400 short-circuit and JSON parsing, all
of which yield `None`). -/
def make_request {α : Type} (endpoint : String)
    (params : List (String × Option String))
    (net : String → List (String × String) → Option α) :
    Option α × List (String × List (String × String)) :=
  match format_params params with
  | none => (none, [])
  | some ps => (net endpoint ps, [(endpoint, ps)])

/- ### The cache layer and the cached accessors -/

/-- The two cache tiers an accessor sees for one collection type:
`mem` embeds the relevant entries of `self.cache` and `disk` the
`data_output/{season}_{type}.json` files (`none` covers both a missing
file and a JSON parse failure, which the code swallows). -/
structure CacheSt (α : Type) where
  mem : List (String × α)
  disk : String → Option α

/-- `_load_cached_data`: memory first, then disk (populating memory on a
disk hit), else `None`. -/
def load_cached_data {α : Type} (dataType season : String) (st : CacheSt α) :
    Option α × CacheSt α :=
  let key := season ++ "_" ++ dataType
  match dictGet st.mem key with
  | some d => (some d, st)
  | none =>
      match st.disk key with
      | some d => (some d, { st with mem := dictInsert st.mem key d })
      | none => (none, st)

/-- `_save_to_cache`: overwrite both the memory entry and the file. -/
def save_to_cache {α : Type} (d : α) (dataType season : String) (st : CacheSt α) :
    CacheSt α :=
  let key := season ++ "_" ++ dataType
  { mem := dictInsert st.mem key d,
    disk := fun k => if k = key then some d else st.disk k }

/-- Python truthiness of the optional `team` argument: `None` and the
empty string are falsy. -/
def teamTruthy : Option String → Bool
  | none => false
  | some t => !(t == "")

/-- The outcome of one cached-accessor call: its return value, the cache
state after the call, whether the network was contacted, and the
collection passed to `_save_to_cache` (if any). -/
structure AccessorCall (α : Type) where
  result : α
  st : CacheSt α
  networkUsed : Bool
  saved : Option α

/-- `get_games(season, team)`: serve a team-scoped call from a cached
full collection when the client-side filter is non-empty, otherwise
fetch from the network (`net` is the `games` request with the varying
`team` parameter); cache the result only for a truthy non-empty fetch
with a falsy `team`. -/
def get_games (season : String) (team : Option String)
    (net : Option String → List Game) (st : CacheSt (List Game)) :
    AccessorCall (List Game) :=
  let ld := load_cached_data "games" season st
  let hit :=
    match ld.1, team with
    | some cached, some t =>
        if t = "" then none
        else
          let team_games := cached.filter (fun g => g.homeTeam == t || g.awayTeam == t)
          if team_games.isEmpty then none else some team_games
    | _, _ => none
  match hit with
  | some team_games => ⟨team_games, ld.2, false, none⟩
  | none =>
      let games := net team
      if ¬ games.isEmpty ∧ teamTruthy team = false then
        ⟨games, save_to_cache games "games" season ld.2, true, some games⟩
      else ⟨games, ld.2, true, none⟩

/-- `get_team_stats(season, team)`: same shape as `get_games`, with the
client-side filter matching the `team` field. -/
def get_team_stats (season : String) (team : Option String)
    (net : Option String → List TeamStat) (st : CacheSt (List TeamStat)) :
    AccessorCall (List TeamStat) :=
  let ld := load_cached_data "team_stats" season st
  let hit :=
    match ld.1, team with
    | some cached, some t =>
        if t = "" then none
        else
          let team_stats := cached.filter (fun s0 => s0.team == t)
          if team_stats.isEmpty then none else some team_stats
    | _, _ => none
  match hit with
  | some team_stats => ⟨team_stats, ld.2, false, none⟩
  | none =>
      let stats := net team
      if ¬ stats.isEmpty ∧ teamTruthy team = false then
        ⟨stats, save_to_cache stats "team_stats" season ld.2, true, some stats⟩
      else ⟨stats, ld.2, true, none⟩

/-- `get_betting_lines(season, team)`: same shape as `get_games`. -/
def get_betting_lines (season : String) (team : Option String)
    (net : Option String → List BettingLine) (st : CacheSt (List BettingLine)) :
    AccessorCall (List BettingLine) :=
  let ld := load_cached_data "betting_lines" season st
  let hit :=
    match ld.1, team with
    | some cached, some t =>
        if t = "" then none
        else
          let team_lines := cached.filter (fun l => l.homeTeam == t || l.awayTeam == t)
          if team_lines.isEmpty then none else some team_lines
    | _, _ => none
  match hit with
  | some team_lines => ⟨team_lines, ld.2, false, none⟩
  | none =>
      let lines := net team
      if ¬ lines.isEmpty ∧ teamTruthy team = false then
        ⟨lines, save_to_cache lines "betting_lines" season ld.2, true, some lines⟩
      else ⟨lines, ld.2, true, none⟩

/- ### Ratings -/

/-- The two rating arrays returned by `get_team_ratings`; the entries
themselves are opaque payloads. -/
structure RatingsData where
  adjusted : List Val
  srs : List Val

/-- One record of the `ratings` cache entry:
`{"team": team, "ratings": ratings_data}`. -/
structure RatingsCacheRec where
  team : Option String
  ratings : RatingsData

/-- The outcome of one `get_team_ratings` call: the returned ratings,
the cache state, the rating sub-requests sent to the network, and the
collection passed to `_save_to_cache` (if any). -/
structure RatingsCall where
  result : RatingsData
  st : CacheSt (List RatingsCacheRec)
  netRequests : List String
  saved : Option (List RatingsCacheRec)

/-- `get_team_ratings(season, team)`: a team-scoped call tries the
cached records first (matching the `team` field of each record); on a
miss it issues the two sub-requests and, only when `team` is falsy,
saves a single-record collection built from the `team` argument. -/
def get_team_ratings (season : String) (team : Option String)
    (netAdj netSrs : Option String → List Val)
    (st : CacheSt (List RatingsCacheRec)) : RatingsCall :=
  let ld := load_cached_data "ratings" season st
  let hit :=
    match ld.1, team with
    | some cached, some t =>
        if t = "" then none
        else
          match cached.filter (fun r => r.team == some t) with
          | [] => none
          | r :: _ => some r.ratings
    | _, _ => none
  match hit with
  | some ratings => ⟨ratings, ld.2, [], none⟩
  | none =>
      let ratings_data : RatingsData := ⟨netAdj team, netSrs team⟩
      if teamTruthy team = false then
        ⟨ratings_data,
          save_to_cache [⟨team, ratings_data⟩] "ratings" season ld.2,
          ["ratings/adjusted", "ratings/srs"], some [⟨team, ratings_data⟩]⟩
      else ⟨ratings_data, ld.2, ["ratings/adjusted", "ratings/srs"], none⟩

/- ### The parallel fetch phase and the whole collection run -/

/-- A team record from the `teams` endpoint: only the `school` field is
read by the orchestrator (`team.get('school')` is `None` when absent). -/
structure Team where
  school : Option String

/-- `_parallel_fetch`: one worker per team fetches one data kind; a
result is recorded only when `if team_name and data:` holds (a falsy
name or falsy result is dropped).  `as_completed` yields results in a
scheduler-dependent order; the embedding uses submission order, one
valid linearization, and no claim below depends on the order. -/
def parallelFetchAux {α : Type} (fetch : String → α) (truthy : α → Bool) :
    List Team → List (String × α) → List (String × α)
  | [], results => results
  | tm :: rest, results =>
      match tm.school with
      | none => parallelFetchAux fetch truthy rest results
      | some name =>
          if name ≠ "" ∧ truthy (fetch name) then
            parallelFetchAux fetch truthy rest (dictInsert results name (fetch name))
          else
            parallelFetchAux fetch truthy rest results

/-- The `results` dict of `_parallel_fetch`, starting empty. -/
def parallel_fetch {α : Type} (teams : List Team) (fetch : String → α)
    (truthy : α → Bool) : List (String × α) :=
  parallelFetchAux fetch truthy teams []

/-- One `progress_window.update(...)` call: the four keyword arguments,
each `none` when not passed.  Fractional progress values are exact
rationals here. -/
structure SinkUpdate where
  status : Option String
  progress : Option ℚ
  subtask : Option ℚ
  detail : Option String
deriving Repr, DecidableEq

/-- The per-unit progress updates emitted by `_parallel_fetch` as the
futures complete. -/
def parallelFetchUpdates (fetchType : String) (total : Nat) : List SinkUpdate :=
  (List.range total).map (fun c =>
    { status := none
      progress := none
      subtask := some (((c + 1 : ℚ) / (total : ℚ)) * 100)
      detail := some ("Fetching " ++ fetchType ++ " (" ++ toString (c + 1) ++ "/"
        ++ toString total ++ " teams)") })

/-- `_save_data_with_progress`: nothing is written (and no update
emitted) for an empty collection; otherwise the JSON and CSV files are
written with the interleaved progress updates. -/
def save_data_with_progress {α : Type} (data : List α) (dataType season : String) :
    List SinkUpdate × List String :=
  if data.isEmpty then ([], [])
  else
    ([{ status := none, progress := none, subtask := some 25,
        detail := some ("Saving " ++ dataType ++ " (JSON)") },
      { status := none, progress := none, subtask := some 50,
        detail := some ("Processing " ++ dataType ++ " for CSV") },
      { status := none, progress := none, subtask := some 75,
        detail := some ("Saving " ++ dataType ++ " (CSV)") },
      { status := none, progress := none, subtask := some 100, detail := none }],
     ["data_output/" ++ season ++ "/" ++ dataType ++ ".json",
      "data_output/" ++ season ++ "/" ++ dataType ++ ".csv"])

/-- `_save_games_by_team`: one JSON and one CSV file per entry of
`games_results`, named by the sanitized team name. -/
def save_games_by_team (results : List (String × List Game)) (season : String) :
    List String :=
  (results.map (fun p =>
    ["data_output/" ++ season ++ "/teams/" ++ safe_team p.1 ++ ".json",
     "data_output/" ++ season ++ "/teams/" ++ safe_team p.1 ++ ".csv"])).flatten

/-- The environment of one collection run: the roster returned by
`get_teams` and the per-team results of the four accessors (each
subsuming its cache/network path for this run). -/
structure CollectEnv where
  teams : List Team
  gamesFor : String → List Game
  statsFor : String → List TeamStat
  linesFor : String → List BettingLine
  ratingsFor : String → RatingsData

/-- What one `collect_comprehensive_data` run produces: the sequence of
progress-sink updates and the data files written, in order. -/
structure RunOut where
  sink : List SinkUpdate
  files : List String

/-- `len(analyzed_teams)`: the number of distinct truthy school names. -/
def analyzedTeamsCount (teams : List Team) : Nat :=
  (((teams.filterMap Team.school).filter (fun n => n ≠ "")).dedup).length

/-- `collect_comprehensive_data(season)`: the zero-teams branch logs and
returns right after the initial update, writing nothing; the main branch
runs the four parallel fetch phases, merges, saves and summarizes.
The accessor-internal progress-only updates (from `_increment_progress`)
carry no status or detail text and are part of the abstracted accessor
environment, so they are not listed here. -/
def collect_comprehensive_data (env : CollectEnv) (season : String)
    (maxTeams : Nat) : RunOut :=
  let u0 : SinkUpdate :=
    { status := some "Fetching teams list...", progress := some 0,
      subtask := some 0, detail := some "Connecting to API" }
  if env.teams.isEmpty then { sink := [u0], files := [] }
  else
    let teams := if maxTeams > 0 then env.teams.take maxTeams else env.teams
    let n := teams.length
    let games_results := parallel_fetch teams env.gamesFor (fun d => !d.isEmpty)
    let stats_results := parallel_fetch teams env.statsFor (fun d => !d.isEmpty)
    let betting_results := parallel_fetch teams env.linesFor (fun d => !d.isEmpty)
    let ratings_results := parallel_fetch teams env.ratingsFor (fun _ => true)
    let all_games := collectGames (games_results.map Prod.snd)
    let all_stats := mergeStats (stats_results.map Prod.snd)
    let all_betting_lines := collectLines (betting_results.map Prod.snd)
    let sGames := save_data_with_progress all_games "games" season
    let sStats := save_data_with_progress all_stats "team_stats" season
    let sLines := save_data_with_progress all_betting_lines "betting_lines" season
    let sRatings :=
      save_data_with_progress (ratings_results.map Prod.snd) "ratings" season
    { sink :=
        [u0,
         { status := some ("Processing " ++ toString n ++ " teams..."),
           progress := some 0, subtask := none,
           detail := some ("Starting parallel data collection for " ++ toString n
             ++ " teams") },
         { status := some "Fetching games data...", progress := none,
           subtask := none, detail := none }]
        ++ parallelFetchUpdates "games" n
        ++ [{ status := none, progress := some 25, subtask := none, detail := none },
            { status := some "Fetching team statistics...", progress := none,
              subtask := none, detail := none }]
        ++ parallelFetchUpdates "stats" n
        ++ [{ status := none, progress := some 50, subtask := none, detail := none },
            { status := some "Fetching betting lines...", progress := none,
              subtask := none, detail := none }]
        ++ parallelFetchUpdates "betting_lines" n
        ++ [{ status := none, progress := some 75, subtask := none, detail := none },
            { status := some "Fetching team ratings...", progress := none,
              subtask := none, detail := none }]
        ++ parallelFetchUpdates "ratings" n
        ++ [{ status := none, progress := some 100, subtask := none, detail := none },
            { status := some "Processing and saving data...", progress := none,
              subtask := some 0, detail := some "Combining and saving collected data" }]
        ++ sGames.1 ++ sStats.1 ++ sLines.1 ++ sRatings.1
        ++ [{ status := some "Generating summary...", progress := some 100,
              subtask := some 100, detail := some "Finalizing data collection" },
            { status := some "Data collection complete!", progress := some 100,
              subtask := some 100,
              detail := some ("All operations finished successfully. Processed "
                ++ toString (analyzedTeamsCount teams) ++ " teams.") }],
      files :=
        save_games_by_team games_results season
        ++ sGames.2 ++ sStats.2 ++ sLines.2 ++ sRatings.2
        ++ ["data_output/" ++ season ++ "_summary.json"] }

/-- The status strings a run sends to the progress sink, in order. -/
def statusTrace (out : RunOut) : List String :=
  out.sink.filterMap SinkUpdate.status

/- ### Lemmas about the games dedup loop -/

theorem dedupGames_nil (s : List Int) : dedupGames [] s = ([], s) := rfl

theorem dedupGames_cons_none (g : Game) (gs : List Game) (s : List Int)
    (hid : g.id = none) : dedupGames (g :: gs) s = dedupGames gs s := by
  simp [dedupGames, hid]

theorem dedupGames_cons_pos (g : Game) (gs : List Game) (s : List Int) (gid : Int)
    (hid : g.id = some gid) (hc : gid ≠ 0 ∧ gid ∉ s) :
    dedupGames (g :: gs) s =
      (g :: (dedupGames gs (gid :: s)).1, (dedupGames gs (gid :: s)).2) := by
  simp [dedupGames, hid, hc]

theorem dedupGames_cons_neg (g : Game) (gs : List Game) (s : List Int) (gid : Int)
    (hid : g.id = some gid) (hc : ¬ (gid ≠ 0 ∧ gid ∉ s)) :
    dedupGames (g :: gs) s = dedupGames gs s := by
  simp only [dedupGames, hid]
  rw [if_neg hc]

theorem dedupGames_append (l₁ l₂ : List Game) (s : List Int) :
    dedupGames (l₁ ++ l₂) s =
      ((dedupGames l₁ s).1 ++ (dedupGames l₂ (dedupGames l₁ s).2).1,
       (dedupGames l₂ (dedupGames l₁ s).2).2) := by
  induction l₁ generalizing s with
  | nil => simp [dedupGames]
  | cons g gs ih =>
      cases hid : g.id with
      | none =>
          rw [List.cons_append, dedupGames_cons_none g _ s hid,
            dedupGames_cons_none g gs s hid, ih]
      | some gid =>
          by_cases hc : gid ≠ 0 ∧ gid ∉ s
          · rw [List.cons_append, dedupGames_cons_pos g _ s gid hid hc,
              dedupGames_cons_pos g gs s gid hid hc, ih]
            simp
          · rw [List.cons_append, dedupGames_cons_neg g _ s gid hid hc,
              dedupGames_cons_neg g gs s gid hid hc, ih]

theorem subset_dedupGames_seen (l : List Game) (s : List Int) (i : Int)
    (hi : i ∈ s) : i ∈ (dedupGames l s).2 := by
  induction l generalizing s with
  | nil => simpa [dedupGames] using hi
  | cons g gs ih =>
      cases hid : g.id with
      | none => rw [dedupGames_cons_none g gs s hid]; exact ih s hi
      | some gid =>
          by_cases hc : gid ≠ 0 ∧ gid ∉ s
          · rw [dedupGames_cons_pos g gs s gid hid hc]
            exact ih (gid :: s) (List.mem_cons_of_mem _ hi)
          · rw [dedupGames_cons_neg g gs s gid hid hc]
            exact ih s hi

theorem mem_dedupGames_seen (l : List Game) (s : List Int) (i : Int)
    (hi : i ≠ 0) (hg : ∃ g ∈ l, g.id = some i) : i ∈ (dedupGames l s).2 := by
  induction l generalizing s with
  | nil => simp at hg
  | cons g0 gs ih =>
      rcases hg with ⟨g, hgmem, hgid⟩
      rcases List.mem_cons.mp hgmem with hg0 | hgs
      · subst hg0
        by_cases hc : i ∈ s
        · exact subset_dedupGames_seen _ _ _ hc
        · rw [dedupGames_cons_pos g gs s i hgid ⟨hi, hc⟩]
          exact subset_dedupGames_seen gs (i :: s) i (List.mem_cons_self _ _)
      · cases hid0 : g0.id with
        | none =>
            rw [dedupGames_cons_none g0 gs s hid0]
            exact ih s ⟨g, hgs, hgid⟩
        | some gid =>
            by_cases hc : gid ≠ 0 ∧ gid ∉ s
            · rw [dedupGames_cons_pos g0 gs s gid hid0 hc]
              exact ih (gid :: s) ⟨g, hgs, hgid⟩
            · rw [dedupGames_cons_neg g0 gs s gid hid0 hc]
              exact ih s ⟨g, hgs, hgid⟩

theorem dedupGames_saturated (l : List Game) (s : List Int)
    (h : ∀ g ∈ l, ∀ i : Int, g.id = some i → i ≠ 0 → i ∈ s) :
    dedupGames l s = ([], s) := by
  induction l generalizing s with
  | nil => rfl
  | cons g gs ih =>
      have htail : ∀ g0 ∈ gs, ∀ i : Int, g0.id = some i → i ≠ 0 → i ∈ s :=
        fun g0 hg0 i h0 h1 => h g0 (List.mem_cons_of_mem _ hg0) i h0 h1
      cases hid : g.id with
      | none => rw [dedupGames_cons_none g gs s hid]; exact ih s htail
      | some gid =>
          have hc : ¬ (gid ≠ 0 ∧ gid ∉ s) := by
            by_cases hz : gid = 0
            · simp [hz]
            · have := h g (List.mem_cons_self _ _) gid hid hz
              simp [this]
          rw [dedupGames_cons_neg g gs s gid hid hc]
          exact ih s htail

theorem dedupGames_countP (l : List Game) (s : List Int) (i : Int) (hi : i ≠ 0) :
    ((dedupGames l s).1.countP (fun g => g.id == some i)) =
      if i ∈ s then 0
      else if l.any (fun g => g.id == some i) then 1 else 0 := by
  induction l generalizing s with
  | nil => simp [dedupGames]
  | cons g gs ih =>
      cases hid : g.id with
      | none =>
          rw [dedupGames_cons_none g gs s hid, ih s]
          simp [List.any_cons, hid]
      | some gid =>
          by_cases hc : gid ≠ 0 ∧ gid ∉ s
          · by_cases hgi : gid = i
            · subst hgi
              rw [dedupGames_cons_pos g gs s gid hid hc, List.countP_cons,
                ih (gid :: s)]
              simp [hid, hc.2, List.mem_cons_self]
            · have h3 : (i ∈ gid :: s) ↔ i ∈ s := by
                rw [List.mem_cons]
                constructor
                · rintro (h | h)
                  · exact absurd h.symm hgi
                  · exact h
                · exact Or.inr
              rw [dedupGames_cons_pos g gs s gid hid hc, List.countP_cons,
                ih (gid :: s)]
              have hpg : (g.id == some i) = false := by simp [hid, hgi]
              simp [hpg, h3, List.any_cons]
          · by_cases hgi : gid = i
            · subst hgi
              have hmem : gid ∈ s := by
                rcases not_and_or.mp hc with h0 | h0
                · exact absurd (not_not.mp h0) hi
                · exact not_not.mp h0
              rw [dedupGames_cons_neg g gs s gid hid hc, ih s]
              simp [hmem]
            · rw [dedupGames_cons_neg g gs s gid hid hc, ih s]
              have hpg : (g.id == some i) = false := by simp [hid, hgi]
              simp [hpg, List.any_cons]

theorem dedupGames_find (l : List Game) (s : List Int) (i : Int) (hi : i ≠ 0)
    (hs : i ∉ s) :
    (dedupGames l s).1.find? (fun g => g.id == some i) =
      l.find? (fun g => g.id == some i) := by
  induction l generalizing s with
  | nil => simp [dedupGames]
  | cons g gs ih =>
      cases hid : g.id with
      | none =>
          have hpg : (g.id == some i) = false := by simp [hid]
          rw [dedupGames_cons_none g gs s hid, ih s hs, List.find?_cons]
          simp [hpg]
      | some gid =>
          by_cases hc : gid ≠ 0 ∧ gid ∉ s
          · by_cases hgi : gid = i
            · subst hgi
              have hpg : (g.id == some gid) = true := by simp [hid]
              rw [dedupGames_cons_pos g gs s gid hid hc]
              simp [List.find?_cons, hpg]
            · have hs2 : i ∉ (gid :: s) := by
                rw [List.mem_cons]
                rintro (h | h)
                · exact hgi h.symm
                · exact hs h
              have hpg : (g.id == some i) = false := by simp [hid, hgi]
              rw [dedupGames_cons_pos g gs s gid hid hc]
              simp only [List.find?_cons, hpg, cond_false]
              exact ih (gid :: s) hs2
          · have hgi : gid ≠ i := by
              intro h
              subst h
              rcases not_and_or.mp hc with h0 | h0
              · exact hi (not_not.mp h0)
              · exact hs (not_not.mp h0)
            have hpg : (g.id == some i) = false := by simp [hid, hgi]
            rw [dedupGames_cons_neg g gs s gid hid hc, ih s hs, List.find?_cons]
            simp [hpg]

theorem collectGamesAux_eq (rs : List (List Game)) (s : List Int) :
    collectGamesAux rs s = dedupGames rs.flatten s := by
  induction rs generalizing s with
  | nil => simp [collectGamesAux, dedupGames]
  | cons tg rest ih =>
      by_cases h : tg.isEmpty
      · have htg : tg = [] := List.isEmpty_iff.mp h
        subst htg
        simp [collectGamesAux, ih, dedupGames]
      · simp [collectGamesAux, h, ih, dedupGames_append]

/- ### Lemmas about the betting-lines dedup loop -/

theorem dedupLines_nil (s : List (String × String)) : dedupLines [] s = ([], s) := rfl

theorem dedupLines_cons_pos (l : BettingLine) (ls : List BettingLine)
    (s : List (String × String)) (hc : lineKey l ∉ s) :
    dedupLines (l :: ls) s =
      (l :: (dedupLines ls (lineKey l :: s)).1, (dedupLines ls (lineKey l :: s)).2) := by
  simp [dedupLines, hc]

theorem dedupLines_cons_neg (l : BettingLine) (ls : List BettingLine)
    (s : List (String × String)) (hc : ¬ lineKey l ∉ s) :
    dedupLines (l :: ls) s = dedupLines ls s := by
  simp only [dedupLines]
  rw [if_neg hc]

theorem dedupLines_append (l₁ l₂ : List BettingLine) (s : List (String × String)) :
    dedupLines (l₁ ++ l₂) s =
      ((dedupLines l₁ s).1 ++ (dedupLines l₂ (dedupLines l₁ s).2).1,
       (dedupLines l₂ (dedupLines l₁ s).2).2) := by
  induction l₁ generalizing s with
  | nil => simp [dedupLines]
  | cons l ls ih =>
      by_cases hc : lineKey l ∉ s
      · rw [List.cons_append, dedupLines_cons_pos l _ s hc,
          dedupLines_cons_pos l ls s hc, ih]
        simp
      · rw [List.cons_append, dedupLines_cons_neg l _ s hc,
          dedupLines_cons_neg l ls s hc, ih]

theorem subset_dedupLines_seen (ls : List BettingLine) (s : List (String × String))
    (k : String × String) (hk : k ∈ s) : k ∈ (dedupLines ls s).2 := by
  induction ls generalizing s with
  | nil => simpa [dedupLines] using hk
  | cons l rest ih =>
      by_cases hc : lineKey l ∉ s
      · rw [dedupLines_cons_pos l rest s hc]
        exact ih (lineKey l :: s) (List.mem_cons_of_mem _ hk)
      · rw [dedupLines_cons_neg l rest s hc]
        exact ih s hk

theorem mem_dedupLines_seen (ls : List BettingLine) (s : List (String × String))
    (k : String × String) (hk : ∃ l ∈ ls, lineKey l = k) :
    k ∈ (dedupLines ls s).2 := by
  induction ls generalizing s with
  | nil => simp at hk
  | cons l0 rest ih =>
      rcases hk with ⟨l, hlmem, hlk⟩
      rcases List.mem_cons.mp hlmem with hl0 | hrest
      · subst hl0
        by_cases hc : lineKey l ∉ s
        · rw [dedupLines_cons_pos l rest s hc, ← hlk]
          exact subset_dedupLines_seen rest _ _ (List.mem_cons_self _ _)
        · rw [dedupLines_cons_neg l rest s hc]
          exact subset_dedupLines_seen rest s k (hlk ▸ not_not.mp hc)
      · by_cases hc : lineKey l0 ∉ s
        · rw [dedupLines_cons_pos l0 rest s hc]
          exact ih (lineKey l0 :: s) ⟨l, hrest, hlk⟩
        · rw [dedupLines_cons_neg l0 rest s hc]
          exact ih s ⟨l, hrest, hlk⟩

theorem dedupLines_saturated (ls : List BettingLine) (s : List (String × String))
    (h : ∀ l ∈ ls, lineKey l ∈ s) : dedupLines ls s = ([], s) := by
  induction ls generalizing s with
  | nil => rfl
  | cons l rest ih =>
      have hc : ¬ lineKey l ∉ s := not_not_intro (h l (List.mem_cons_self _ _))
      rw [dedupLines_cons_neg l rest s hc]
      exact ih s (fun l0 hl0 => h l0 (List.mem_cons_of_mem _ hl0))

theorem dedupLines_countP (ls : List BettingLine) (s : List (String × String))
    (k : String × String) :
    ((dedupLines ls s).1.countP (fun l => lineKey l == k)) =
      if k ∈ s then 0
      else if ls.any (fun l => lineKey l == k) then 1 else 0 := by
  induction ls generalizing s with
  | nil => simp [dedupLines]
  | cons l rest ih =>
      by_cases hc : lineKey l ∉ s
      · by_cases hlk : lineKey l = k
        · rw [dedupLines_cons_pos l rest s hc, List.countP_cons, ih (lineKey l :: s)]
          simp [hlk, List.mem_cons_self, hlk ▸ hc, List.any_cons]
        · have h3 : (k ∈ lineKey l :: s) ↔ k ∈ s := by
            rw [List.mem_cons]
            constructor
            · rintro (h | h)
              · exact absurd h.symm hlk
              · exact h
            · exact Or.inr
          rw [dedupLines_cons_pos l rest s hc, List.countP_cons, ih (lineKey l :: s)]
          simp [hlk, h3, List.any_cons]
      · by_cases hlk : lineKey l = k
        · rw [dedupLines_cons_neg l rest s hc, ih s]
          simp [hlk ▸ not_not.mp hc]
        · rw [dedupLines_cons_neg l rest s hc, ih s]
          simp [hlk, List.any_cons]

theorem dedupLines_find (ls : List BettingLine) (s : List (String × String))
    (k : String × String) (hs : k ∉ s) :
    (dedupLines ls s).1.find? (fun l => lineKey l == k) =
      ls.find? (fun l => lineKey l == k) := by
  induction ls generalizing s with
  | nil => simp [dedupLines]
  | cons l rest ih =>
      by_cases hc : lineKey l ∉ s
      · by_cases hlk : lineKey l = k
        · rw [dedupLines_cons_pos l rest s hc]
          simp [List.find?_cons, hlk]
        · have hs2 : k ∉ (lineKey l :: s) := by
            rw [List.mem_cons]
            rintro (h | h)
            · exact hlk h.symm
            · exact hs h
          rw [dedupLines_cons_pos l rest s hc]
          simp only [List.find?_cons]
          have hpg : (lineKey l == k) = false := by simp [hlk]
          simp only [hpg, cond_false]
          exact ih (lineKey l :: s) hs2
      · have hlk : lineKey l ≠ k := fun h => hs (h ▸ not_not.mp hc)
        have hpg : (lineKey l == k) = false := by simp [hlk]
        rw [dedupLines_cons_neg l rest s hc, ih s hs, List.find?_cons]
        simp [hpg]

theorem dedupLines_out_keys (ls : List BettingLine) (s : List (String × String)) :
    ∀ l ∈ (dedupLines ls s).1, lineKey l ∉ s := by
  induction ls generalizing s with
  | nil => simp [dedupLines]
  | cons l rest ih =>
      by_cases hc : lineKey l ∉ s
      · rw [dedupLines_cons_pos l rest s hc]
        intro l0 hl0
        rcases List.mem_cons.mp hl0 with h | h
        · exact h ▸ hc
        · exact fun hmem =>
            ih (lineKey l :: s) l0 h (List.mem_cons_of_mem _ hmem)
      · rw [dedupLines_cons_neg l rest s hc]
        exact ih s

theorem dedupLines_keys_nodup (ls : List BettingLine) (s : List (String × String)) :
    ((dedupLines ls s).1.map lineKey).Nodup := by
  induction ls generalizing s with
  | nil => simp [dedupLines]
  | cons l rest ih =>
      by_cases hc : lineKey l ∉ s
      · rw [dedupLines_cons_pos l rest s hc]
        simp only [List.map_cons, List.nodup_cons]
        refine ⟨?_, ih (lineKey l :: s)⟩
        intro hmem
        rcases List.mem_map.mp hmem with ⟨l0, hl0, hk0⟩
        exact dedupLines_out_keys rest (lineKey l :: s) l0 hl0
          (hk0 ▸ List.mem_cons_self _ _)
      · rw [dedupLines_cons_neg l rest s hc]
        exact ih s

theorem collectLinesAux_eq (rs : List (List BettingLine)) (s : List (String × String)) :
    collectLinesAux rs s = dedupLines rs.flatten s := by
  induction rs generalizing s with
  | nil => simp [collectLinesAux, dedupLines]
  | cons tl rest ih =>
      by_cases h : tl.isEmpty
      · have htl : tl = [] := List.isEmpty_iff.mp h
        subst htl
        simp [collectLinesAux, ih, dedupLines]
      · simp [collectLinesAux, h, ih, dedupLines_append]

/- ### Dict lemmas -/

theorem dictGet_append_self {α : Type} (m : List (String × α)) (k : String) (v : α)
    (h : m.any (fun p => p.1 = k) = false) :
    dictGet (m ++ [(k, v)]) k = some v := by
  induction m with
  | nil => simp [dictGet]
  | cons p m ih =>
      simp only [List.any_cons, Bool.or_eq_false_iff] at h
      have hp : ¬ p.1 = k := by simpa using h.1
      simp only [List.cons_append, dictGet, List.find?_cons]
      rw [show (decide (p.1 = k)) = false by simpa using hp]
      simpa [dictGet] using ih h.2

theorem dictGet_map_overwrite {α : Type} (m : List (String × α)) (k : String) (v : α)
    (h : m.any (fun p => p.1 = k) = true) :
    dictGet (m.map (fun p => if p.1 = k then (k, v) else p)) k = some v := by
  induction m with
  | nil => simp at h
  | cons p m ih =>
      by_cases hp : p.1 = k
      · simp [dictGet, List.find?_cons, hp]
      · simp only [List.any_cons, Bool.or_eq_true] at h
        rcases h with h | h
        · exact absurd (by simpa using h) hp
        · simp only [List.map_cons, if_neg hp, dictGet, List.find?_cons]
          rw [show (decide (p.1 = k)) = false by simpa using hp]
          simpa [dictGet] using ih h

theorem dictGet_dictInsert_self {α : Type} (m : List (String × α)) (k : String)
    (v : α) : dictGet (dictInsert m k v) k = some v := by
  unfold dictInsert
  by_cases h : m.any (fun p => p.1 = k)
  · rw [if_pos h]
    exact dictGet_map_overwrite m k v h
  · rw [if_neg h]
    exact dictGet_append_self m k v (Bool.not_eq_true _ ▸ h)

/- ### Lemmas about `_load_cached_data` -/

theorem load_cached_data_spec {α : Type} (dataType season : String)
    (st : CacheSt α) :
    ((load_cached_data dataType season st).2.mem = st.mem ∨
      (∃ d, dictGet st.mem (season ++ "_" ++ dataType) = none ∧
        st.disk (season ++ "_" ++ dataType) = some d ∧
        (load_cached_data dataType season st).2.mem =
          dictInsert st.mem (season ++ "_" ++ dataType) d)) ∧
    (load_cached_data dataType season st).2.disk = st.disk := by
  unfold load_cached_data
  cases hm : dictGet st.mem (season ++ "_" ++ dataType) with
  | some d => simp [hm]
  | none =>
      cases hd : st.disk (season ++ "_" ++ dataType) with
      | some d => simp [hm, hd]
      | none => simp [hm, hd]

/- ### Claim C4 lemmas -/

theorem format_params_cons_none (k : String) (rest : List (String × Option String)) :
    format_params ((k, none) :: rest) = format_params rest := by
  simp [format_params]

theorem format_params_cons_season (s : String) (rest : List (String × Option String)) :
    format_params (("season", some s) :: rest) =
      (format_params rest).map (fun r => ("season", format_season s) :: r) := by
  simp [format_params]

theorem format_params_cons_team (s : String) (rest : List (String × Option String)) :
    format_params (("team", some s) :: rest) =
      (format_params rest).map (fun r => ("team", s) :: r) := by
  simp [format_params]

theorem format_params_cons_status (s : String) (rest : List (String × Option String)) :
    format_params (("status", some s) :: rest) =
      if valid_statuses.contains (pyLower s) then
        (format_params rest).map (fun r => ("status", (pyLower s)) :: r)
      else none := by
  simp [format_params]

theorem format_params_cons_other (k s : String) (rest : List (String × Option String))
    (h1 : k ≠ "season") (h2 : k ≠ "team") (h3 : k ≠ "status") :
    format_params ((k, some s) :: rest) =
      (format_params rest).map (fun r => (k, s) :: r) := by
  simp [format_params, h1, h2, h3]

theorem format_params_isSome (params : List (String × Option String)) :
    (format_params params).isSome ↔
      ∀ v : String, ("status", some v) ∈ params → (pyLower v) ∈ valid_statuses := by
  induction params with
  | nil => simp [format_params]
  | cons p rest ih =>
      obtain ⟨k, w⟩ := p
      cases w with
      | none =>
          rw [format_params_cons_none, ih]
          constructor
          · intro h v hv2
            rcases List.mem_cons.mp hv2 with hh | ht
            · simp at hh
            · exact h v ht
          · intro h v hv2
            exact h v (List.mem_cons_of_mem _ hv2)
      | some s =>
          by_cases hk1 : k = "season"
          · subst hk1
            rw [format_params_cons_season, Option.isSome_map', ih]
            constructor
            · intro h v hv2
              rcases List.mem_cons.mp hv2 with hh | ht
              · simp at hh
              · exact h v ht
            · intro h v hv2
              exact h v (List.mem_cons_of_mem _ hv2)
          · by_cases hk2 : k = "team"
            · subst hk2
              rw [format_params_cons_team, Option.isSome_map', ih]
              constructor
              · intro h v hv2
                rcases List.mem_cons.mp hv2 with hh | ht
                · simp at hh
                · exact h v ht
              · intro h v hv2
                exact h v (List.mem_cons_of_mem _ hv2)
            · by_cases hk3 : k = "status"
              · subst hk3
                rw [format_params_cons_status]
                by_cases hv : valid_statuses.contains (pyLower s)
                · rw [if_pos hv, Option.isSome_map', ih]
                  constructor
                  · intro h v hv2
                    rcases List.mem_cons.mp hv2 with hh | ht
                    · have hvs : v = s := by simpa using hh
                      subst hvs
                      simpa using hv
                    · exact h v ht
                  · intro h v hv2
                    exact h v (List.mem_cons_of_mem _ hv2)
                · rw [if_neg hv]
                  apply iff_of_false
                  · simp
                  · intro hAll
                    exact (by simpa using hv : (pyLower s) ∉ valid_statuses)
                      (hAll s (List.mem_cons_self _ _))
              · rw [format_params_cons_other k s rest hk1 hk2 hk3,
                  Option.isSome_map', ih]
                constructor
                · intro h v hv2
                  rcases List.mem_cons.mp hv2 with hh | ht
                  · have h1 : "status" = k := congrArg Prod.fst hh
                    exact absurd h1.symm hk3
                  · exact h v ht
                · intro h v hv2
                  exact h v (List.mem_cons_of_mem _ hv2)

theorem format_params_status_mem (params : List (String × Option String))
    (v : String) (ps : List (String × String))
    (hmem : ("status", some v) ∈ params) (hps : format_params params = some ps) :
    ("status", (pyLower v)) ∈ ps := by
  induction params generalizing ps with
  | nil => simp at hmem
  | cons p rest ih =>
      obtain ⟨k, w⟩ := p
      rcases List.mem_cons.mp hmem with hhead | htail
      · have hk : "status" = k := congrArg Prod.fst hhead
        have hw : (some v : Option String) = w := congrArg Prod.snd hhead
        subst hk
        cases hw
        rw [format_params_cons_status] at hps
        by_cases hv : valid_statuses.contains (pyLower v)
        · rw [if_pos hv] at hps
          cases hrest : format_params rest with
          | none => rw [hrest] at hps; simp at hps
          | some r =>
              rw [hrest] at hps
              simp only [Option.map_some', Option.some_inj] at hps
              rw [← hps]
              exact List.mem_cons_self _ _
        · rw [if_neg hv] at hps
          simp at hps
      · cases w with
        | none =>
            rw [format_params_cons_none] at hps
            exact ih _ htail hps
        | some s =>
            by_cases hk1 : k = "season"
            · subst hk1
              rw [format_params_cons_season] at hps
              cases hrest : format_params rest with
              | none => rw [hrest] at hps; simp at hps
              | some r =>
                  rw [hrest] at hps
                  simp only [Option.map_some', Option.some_inj] at hps
                  rw [← hps]
                  exact List.mem_cons_of_mem _ (ih _ htail hrest)
            · by_cases hk2 : k = "team"
              · subst hk2
                rw [format_params_cons_team] at hps
                cases hrest : format_params rest with
                | none => rw [hrest] at hps; simp at hps
                | some r =>
                    rw [hrest] at hps
                    simp only [Option.map_some', Option.some_inj] at hps
                    rw [← hps]
                    exact List.mem_cons_of_mem _ (ih _ htail hrest)
              · by_cases hk3 : k = "status"
                · subst hk3
                  rw [format_params_cons_status] at hps
                  by_cases hv : valid_statuses.contains (pyLower s)
                  · rw [if_pos hv] at hps
                    cases hrest : format_params rest with
                    | none => rw [hrest] at hps; simp at hps
                    | some r =>
                        rw [hrest] at hps
                        simp only [Option.map_some', Option.some_inj] at hps
                        rw [← hps]
                        exact List.mem_cons_of_mem _ (ih _ htail hrest)
                  · rw [if_neg hv] at hps
                    simp at hps
                · rw [format_params_cons_other k s rest hk1 hk2 hk3] at hps
                  cases hrest : format_params rest with
                  | none => rw [hrest] at hps; simp at hps
                  | some r =>
                      rw [hrest] at hps
                      simp only [Option.map_some', Option.some_inj] at hps
                      rw [← hps]
                      exact List.mem_cons_of_mem _ (ih _ htail hrest)

/- ### Claim C1 -/

/-- C1: merging the per-team games lists keeps, for every game
identifier (a truthy `id`, i.e. a non-zero integer), exactly one record
when the identifier occurs at all — the first-seen record in iteration
order — and drops later duplicates; and merging the same input twice
yields the same merged output (dedup is idempotent). -/
theorem games_merge_first_seen_unique (results : List (List Game)) :
    (∀ i : Int, i ≠ 0 →
      ((collectGames results).countP (fun g => g.id == some i) =
        if results.flatten.any (fun g => g.id == some i) then 1 else 0) ∧
      (collectGames results).find? (fun g => g.id == some i) =
        results.flatten.find? (fun g => g.id == some i)) ∧
    collectGames (results ++ results) = collectGames results := by
  constructor
  · intro i hi
    constructor
    · rw [collectGames, collectGamesAux_eq, dedupGames_countP _ _ _ hi]
      simp
    · rw [collectGames, collectGamesAux_eq, dedupGames_find _ _ _ hi (by simp)]
  · rw [collectGames, collectGames, collectGamesAux_eq, collectGamesAux_eq,
      List.flatten_append, dedupGames_append]
    have hsat := dedupGames_saturated results.flatten (dedupGames results.flatten []).2
      (fun g hg i h0 h1 => mem_dedupGames_seen results.flatten [] i h1 ⟨g, hg, h0⟩)
    rw [hsat]
    simp

/-- Witness for C1 at a concrete overlapping fetch: game 1 appears in
both team fetches (with different payloads); the merge keeps exactly one
record with id 1, and merging the doubled input changes nothing. -/
theorem games_merge_first_seen_unique_witness :
    (collectGames
        [[⟨some 1, "A", "B", some 70, some 60, "final"⟩,
          ⟨some 2, "B", "C", some 50, some 40, "final"⟩],
         [⟨some 1, "A", "B", none, none, "final"⟩]]).countP
        (fun g => g.id == some 1) = 1 ∧
    collectGames
        ([[⟨some 1, "A", "B", some 70, some 60, "final"⟩,
           ⟨some 2, "B", "C", some 50, some 40, "final"⟩],
          [⟨some 1, "A", "B", none, none, "final"⟩]] ++
         [[⟨some 1, "A", "B", some 70, some 60, "final"⟩,
           ⟨some 2, "B", "C", some 50, some 40, "final"⟩],
          [⟨some 1, "A", "B", none, none, "final"⟩]]) =
      collectGames
        [[⟨some 1, "A", "B", some 70, some 60, "final"⟩,
          ⟨some 2, "B", "C", some 50, some 40, "final"⟩],
         [⟨some 1, "A", "B", none, none, "final"⟩]] := by
  have h := games_merge_first_seen_unique
    [[⟨some 1, "A", "B", some 70, some 60, "final"⟩,
      ⟨some 2, "B", "C", some 50, some 40, "final"⟩],
     [⟨some 1, "A", "B", none, none, "final"⟩]]
  refine ⟨?_, h.2⟩
  rw [(h.1 1 (by decide)).1]
  decide

/- ### Claim C2 -/

/-- C2 counterexample: two betting lines that share `gameId` and
`provider` but differ in open date and in home/away teams are NOT both
retained — the merge keeps only the first-seen one, so the dedup key is
not the claimed five-field composite. -/
theorem lines_composite_key_counterexample :
    collectLines [[⟨some 1, "2025-01-01", "A", "B", some "P"⟩,
                   ⟨some 1, "2025-01-02", "B", "A", some "P"⟩]] =
      [⟨some 1, "2025-01-01", "A", "B", some "P"⟩] ∧
    (⟨some 1, "2025-01-02", "B", "A", some "P"⟩ : BettingLine) ∉
      collectLines [[⟨some 1, "2025-01-01", "A", "B", some "P"⟩,
                     ⟨some 1, "2025-01-02", "B", "A", some "P"⟩]] := by
  decide

/-- C2 (amended): the merge keeps the first-seen record per key
`(str(gameId), str(provider))` — exactly one output row per occurring
key — so no two output rows share that pair, and in particular no two
output rows share the five-field composite
(gameId, openDate, homeTeam, awayTeam, provider) either. -/
theorem lines_merge_first_seen_by_id_provider (results : List (List BettingLine)) :
    (∀ k : String × String,
      ((collectLines results).countP (fun l => lineKey l == k) =
        if results.flatten.any (fun l => lineKey l == k) then 1 else 0) ∧
      (collectLines results).find? (fun l => lineKey l == k) =
        results.flatten.find? (fun l => lineKey l == k)) ∧
    ((collectLines results).map lineKey).Nodup ∧
    ((collectLines results).map (fun l =>
      (l.gameId, l.openDate, l.homeTeam, l.awayTeam, l.provider))).Nodup := by
  refine ⟨fun k => ⟨?_, ?_⟩, ?_, ?_⟩
  · rw [collectLines, collectLinesAux_eq, dedupLines_countP]
    simp
  · rw [collectLines, collectLinesAux_eq, dedupLines_find _ _ _ (by simp)]
  · rw [collectLines, collectLinesAux_eq]
    exact dedupLines_keys_nodup _ _
  · have hk : ((collectLines results).map (fun l =>
        (l.gameId, l.openDate, l.homeTeam, l.awayTeam, l.provider))).map
          (fun q => (gameIdStr q.1, providerStr q.2.2.2.2)) =
        (collectLines results).map lineKey := by
      rw [List.map_map]
      rfl
    refine List.Nodup.of_map (fun q => (gameIdStr q.1, providerStr q.2.2.2.2)) ?_
    rw [hk, collectLines, collectLinesAux_eq]
    exact dedupLines_keys_nodup _ _

/- ### Claim C4 -/

/-- C4: a request parameter list passes formatting iff every `status`
value it carries lowercases into the fixed enumeration; accepted
statuses are sent lowercased; and a rejected status aborts
`_make_request` before any network request is sent. -/
theorem status_param_validation {α : Type} (endpoint : String)
    (params : List (String × Option String))
    (net : String → List (String × String) → Option α) :
    ((format_params params).isSome ↔
      ∀ v : String, ("status", some v) ∈ params → (pyLower v) ∈ valid_statuses) ∧
    (∀ (v : String) (ps : List (String × String)),
      ("status", some v) ∈ params → format_params params = some ps →
        ("status", (pyLower v)) ∈ ps) ∧
    (format_params params = none →
      make_request endpoint params net = (none, [])) := by
  refine ⟨format_params_isSome params,
    fun v ps hv hps => format_params_status_mem params v ps hv hps, fun h => ?_⟩
  rw [make_request, h]

/-- Witness for C4: `"FINAL"` is normalized to `"final"` and accepted,
while `"done"` is rejected and the call aborts with no request sent. -/
theorem status_param_validation_witness :
    format_params [("status", some "FINAL")] = some [("status", "final")] ∧
    make_request "games" [("status", some "done")]
        (fun _ _ => some ([] : List Game)) = (none, []) := by
  refine ⟨by decide, ?_⟩
  exact (status_param_validation "games" [("status", some "done")]
    (fun _ _ => some ([] : List Game))).2.2 (by decide)

/- ### Claim C10 -/

theorem get_team_ratings_unfiltered (season : String)
    (netAdj netSrs : Option String → List Val)
    (st : CacheSt (List RatingsCacheRec)) :
    get_team_ratings season none netAdj netSrs st =
      ⟨⟨netAdj none, netSrs none⟩,
        save_to_cache [⟨none, ⟨netAdj none, netSrs none⟩⟩] "ratings" season
          (load_cached_data "ratings" season st).2,
        ["ratings/adjusted", "ratings/srs"],
        some [⟨none, ⟨netAdj none, netSrs none⟩⟩]⟩ := by
  unfold get_team_ratings
  cases hld : (load_cached_data "ratings" season st).1 with
  | none => simp [hld, teamTruthy]
  | some cached => simp [hld, teamTruthy]

theorem get_team_ratings_no_cache_match (season t : String)
    (netAdj2 netSrs2 : Option String → List Val)
    (st1 : CacheSt (List RatingsCacheRec)) (cached : List RatingsCacheRec)
    (hmem : dictGet st1.mem (season ++ "_" ++ "ratings") = some cached)
    (hfilter : cached.filter (fun r => r.team == some t) = []) :
    (get_team_ratings season (some t) netAdj2 netSrs2 st1).netRequests =
      ["ratings/adjusted", "ratings/srs"] ∧
    (get_team_ratings season (some t) netAdj2 netSrs2 st1).result =
      ⟨netAdj2 (some t), netSrs2 (some t)⟩ := by
  have hld : load_cached_data "ratings" season st1 = (some cached, st1) := by
    simp only [load_cached_data, hmem]
  unfold get_team_ratings
  rw [hld]
  by_cases ht : t = ""
  · subst ht
    by_cases htt : teamTruthy (some "") = false <;> simp [htt]
  · simp only [ht, if_neg ht, hfilter]
    by_cases htt : teamTruthy (some t) = false <;> simp [htt, hfilter, ht]

/- ### Accessor behaviour lemmas (used by the cache claims) -/

theorem get_games_cached_filter (season t : String) (ht : t ≠ "")
    (net : Option String → List Game) (st : CacheSt (List Game))
    (data : List Game)
    (hld : (load_cached_data "games" season st).1 = some data) :
    (data.filter (fun g => g.homeTeam == t || g.awayTeam == t) ≠ [] →
      get_games season (some t) net st =
        ⟨data.filter (fun g => g.homeTeam == t || g.awayTeam == t),
          (load_cached_data "games" season st).2, false, none⟩) ∧
    (data.filter (fun g => g.homeTeam == t || g.awayTeam == t) = [] →
      (get_games season (some t) net st).networkUsed = true ∧
      (get_games season (some t) net st).result = net (some t)) := by
  have htt : teamTruthy (some t) = true := by simp [teamTruthy, ht]
  constructor
  · intro hne
    have hf : (data.filter (fun g => g.homeTeam == t || g.awayTeam == t)).isEmpty = false := by
      simpa [List.isEmpty_iff] using hne
    simp [get_games, hld, ht, hf, htt]
  · intro heq
    simp [get_games, hld, ht, heq, htt]

theorem get_games_cache_miss (season : String) (team : Option String)
    (net : Option String → List Game) (st : CacheSt (List Game))
    (hld : (load_cached_data "games" season st).1 = none) :
    (get_games season team net st).networkUsed = true := by
  cases team with
  | none =>
      simp only [get_games, hld]
      split <;> rfl
  | some t =>
      simp only [get_games, hld]
      split <;> rfl

theorem get_games_scoped_no_save (season t : String) (ht : t ≠ "")
    (net : Option String → List Game) (st : CacheSt (List Game)) :
    (get_games season (some t) net st).saved = none ∧
    (get_games season (some t) net st).st =
      (load_cached_data "games" season st).2 := by
  have htt : teamTruthy (some t) = true := by simp [teamTruthy, ht]
  cases hld : (load_cached_data "games" season st).1 with
  | none => simp [get_games, hld, htt]
  | some data =>
      by_cases hf : (data.filter (fun g => g.homeTeam == t || g.awayTeam == t)).isEmpty <;>
        simp [get_games, hld, ht, htt, hf]

theorem get_team_stats_cached_filter (season t : String) (ht : t ≠ "")
    (net : Option String → List TeamStat) (st : CacheSt (List TeamStat))
    (data : List TeamStat)
    (hld : (load_cached_data "team_stats" season st).1 = some data) :
    (data.filter (fun s0 => s0.team == t) ≠ [] →
      get_team_stats season (some t) net st =
        ⟨data.filter (fun s0 => s0.team == t),
          (load_cached_data "team_stats" season st).2, false, none⟩) ∧
    (data.filter (fun s0 => s0.team == t) = [] →
      (get_team_stats season (some t) net st).networkUsed = true ∧
      (get_team_stats season (some t) net st).result = net (some t)) := by
  have htt : teamTruthy (some t) = true := by simp [teamTruthy, ht]
  constructor
  · intro hne
    have hf : (data.filter (fun s0 => s0.team == t)).isEmpty = false := by
      simpa [List.isEmpty_iff] using hne
    simp [get_team_stats, hld, ht, hf, htt]
  · intro heq
    simp [get_team_stats, hld, ht, heq, htt]

theorem get_team_stats_cache_miss (season : String) (team : Option String)
    (net : Option String → List TeamStat) (st : CacheSt (List TeamStat))
    (hld : (load_cached_data "team_stats" season st).1 = none) :
    (get_team_stats season team net st).networkUsed = true := by
  cases team with
  | none =>
      simp only [get_team_stats, hld]
      split <;> rfl
  | some t =>
      simp only [get_team_stats, hld]
      split <;> rfl

theorem get_team_stats_scoped_no_save (season t : String) (ht : t ≠ "")
    (net : Option String → List TeamStat) (st : CacheSt (List TeamStat)) :
    (get_team_stats season (some t) net st).saved = none ∧
    (get_team_stats season (some t) net st).st =
      (load_cached_data "team_stats" season st).2 := by
  have htt : teamTruthy (some t) = true := by simp [teamTruthy, ht]
  cases hld : (load_cached_data "team_stats" season st).1 with
  | none => simp [get_team_stats, hld, htt]
  | some data =>
      by_cases hf : (data.filter (fun s0 => s0.team == t)).isEmpty <;>
        simp [get_team_stats, hld, ht, htt, hf]

theorem get_betting_lines_cached_filter (season t : String) (ht : t ≠ "")
    (net : Option String → List BettingLine) (st : CacheSt (List BettingLine))
    (data : List BettingLine)
    (hld : (load_cached_data "betting_lines" season st).1 = some data) :
    (data.filter (fun l => l.homeTeam == t || l.awayTeam == t) ≠ [] →
      get_betting_lines season (some t) net st =
        ⟨data.filter (fun l => l.homeTeam == t || l.awayTeam == t),
          (load_cached_data "betting_lines" season st).2, false, none⟩) ∧
    (data.filter (fun l => l.homeTeam == t || l.awayTeam == t) = [] →
      (get_betting_lines season (some t) net st).networkUsed = true ∧
      (get_betting_lines season (some t) net st).result = net (some t)) := by
  have htt : teamTruthy (some t) = true := by simp [teamTruthy, ht]
  constructor
  · intro hne
    have hf : (data.filter (fun l => l.homeTeam == t || l.awayTeam == t)).isEmpty = false := by
      simpa [List.isEmpty_iff] using hne
    simp [get_betting_lines, hld, ht, hf, htt]
  · intro heq
    simp [get_betting_lines, hld, ht, heq, htt]

theorem get_betting_lines_scoped_no_save (season t : String) (ht : t ≠ "")
    (net : Option String → List BettingLine) (st : CacheSt (List BettingLine)) :
    (get_betting_lines season (some t) net st).saved = none ∧
    (get_betting_lines season (some t) net st).st =
      (load_cached_data "betting_lines" season st).2 := by
  have htt : teamTruthy (some t) = true := by simp [teamTruthy, ht]
  cases hld : (load_cached_data "betting_lines" season st).1 with
  | none => simp [get_betting_lines, hld, htt]
  | some data =>
      by_cases hf : (data.filter (fun l => l.homeTeam == t || l.awayTeam == t)).isEmpty <;>
        simp [get_betting_lines, hld, ht, htt, hf]

theorem get_team_ratings_scoped_no_save (season t : String) (ht : t ≠ "")
    (netAdj netSrs : Option String → List Val)
    (st : CacheSt (List RatingsCacheRec)) :
    (get_team_ratings season (some t) netAdj netSrs st).saved = none ∧
    (get_team_ratings season (some t) netAdj netSrs st).st =
      (load_cached_data "ratings" season st).2 := by
  have htt : teamTruthy (some t) = true := by simp [teamTruthy, ht]
  cases hld : (load_cached_data "ratings" season st).1 with
  | none => simp [get_team_ratings, hld, htt]
  | some cached =>
      cases hf : cached.filter (fun r => r.team == some t) with
      | nil => simp [get_team_ratings, hld, ht, htt, hf]
      | cons r rest => simp [get_team_ratings, hld, ht, htt, hf]

/-- C10: an unfiltered `get_team_ratings` call caches exactly one record
whose `team` field is `None`; a later team-scoped call on the resulting
state finds no matching cached record, so it issues both rating
sub-requests and returns the fresh network data rather than the cache. -/
theorem ratings_cache_null_team_refetch (season t : String)
    (netAdj netSrs netAdj2 netSrs2 : Option String → List Val)
    (st : CacheSt (List RatingsCacheRec)) :
    (get_team_ratings season none netAdj netSrs st).saved =
      some [⟨none, ⟨netAdj none, netSrs none⟩⟩] ∧
    dictGet (get_team_ratings season none netAdj netSrs st).st.mem
      (season ++ "_" ++ "ratings") = some [⟨none, ⟨netAdj none, netSrs none⟩⟩] ∧
    (get_team_ratings season (some t) netAdj2 netSrs2
      (get_team_ratings season none netAdj netSrs st).st).netRequests =
        ["ratings/adjusted", "ratings/srs"] ∧
    (get_team_ratings season (some t) netAdj2 netSrs2
      (get_team_ratings season none netAdj netSrs st).st).result =
        ⟨netAdj2 (some t), netSrs2 (some t)⟩ := by
  have hc1 := get_team_ratings_unfiltered season netAdj netSrs st
  have hmem : dictGet (get_team_ratings season none netAdj netSrs st).st.mem
      (season ++ "_" ++ "ratings") =
      some [⟨none, ⟨netAdj none, netSrs none⟩⟩] := by
    rw [hc1]
    dsimp only [save_to_cache]
    exact dictGet_dictInsert_self _ _ _
  have hrest := get_team_ratings_no_cache_match season t netAdj2 netSrs2
    (get_team_ratings season none netAdj netSrs st).st
    [⟨none, ⟨netAdj none, netSrs none⟩⟩] hmem (by simp)
  exact ⟨by rw [hc1], hmem, hrest.1, hrest.2⟩

/- ### Claim C6 -/

/-- C6 counterexample: a cached unfiltered games collection exists for
the key (no cache miss), yet the team-scoped call still contacts the
network because the client-side filter matches nothing — refuting
"falls through to a network fetch only on a cache miss". -/
theorem games_cache_hit_empty_filter_counterexample :
    (get_games "2025" (some "C")
      (fun _ => [⟨some 9, "C", "D", none, none, "final"⟩])
      ⟨[("2025_games", [⟨some 1, "A", "B", some 70, some 60, "final"⟩])],
        fun _ => none⟩).networkUsed = true ∧
    (get_games "2025" (some "C")
      (fun _ => [⟨some 9, "C", "D", none, none, "final"⟩])
      ⟨[("2025_games", [⟨some 1, "A", "B", some 70, some 60, "final"⟩])],
        fun _ => none⟩).result = [⟨some 9, "C", "D", none, none, "final"⟩] := by
  exact ⟨rfl, rfl⟩

/-- C6 (amended): a team-scoped accessor call that finds a cached
unfiltered collection returns its non-empty client-side filter without
contacting the network or saving; it falls through to the network when
the cache misses or when the filter comes back empty; and a cache save
happens only on unfiltered (falsy-team) fetches. -/
theorem team_scoped_cache_filter (season t : String) (ht : t ≠ "")
    (netG : Option String → List Game) (stG : CacheSt (List Game))
    (netS : Option String → List TeamStat) (stS : CacheSt (List TeamStat))
    (netL : Option String → List BettingLine) (stL : CacheSt (List BettingLine)) :
    (∀ data, (load_cached_data "games" season stG).1 = some data →
      (data.filter (fun g => g.homeTeam == t || g.awayTeam == t) ≠ [] →
        get_games season (some t) netG stG =
          ⟨data.filter (fun g => g.homeTeam == t || g.awayTeam == t),
            (load_cached_data "games" season stG).2, false, none⟩) ∧
      (data.filter (fun g => g.homeTeam == t || g.awayTeam == t) = [] →
        (get_games season (some t) netG stG).networkUsed = true ∧
        (get_games season (some t) netG stG).result = netG (some t))) ∧
    ((load_cached_data "games" season stG).1 = none →
      (get_games season (some t) netG stG).networkUsed = true) ∧
    (get_games season (some t) netG stG).saved = none ∧
    (∀ data, (load_cached_data "team_stats" season stS).1 = some data →
      (data.filter (fun s0 => s0.team == t) ≠ [] →
        get_team_stats season (some t) netS stS =
          ⟨data.filter (fun s0 => s0.team == t),
            (load_cached_data "team_stats" season stS).2, false, none⟩) ∧
      (data.filter (fun s0 => s0.team == t) = [] →
        (get_team_stats season (some t) netS stS).networkUsed = true ∧
        (get_team_stats season (some t) netS stS).result = netS (some t))) ∧
    ((load_cached_data "team_stats" season stS).1 = none →
      (get_team_stats season (some t) netS stS).networkUsed = true) ∧
    (get_team_stats season (some t) netS stS).saved = none ∧
    (∀ data, (load_cached_data "betting_lines" season stL).1 = some data →
      (data.filter (fun l => l.homeTeam == t || l.awayTeam == t) ≠ [] →
        get_betting_lines season (some t) netL stL =
          ⟨data.filter (fun l => l.homeTeam == t || l.awayTeam == t),
            (load_cached_data "betting_lines" season stL).2, false, none⟩) ∧
      (data.filter (fun l => l.homeTeam == t || l.awayTeam == t) = [] →
        (get_betting_lines season (some t) netL stL).networkUsed = true ∧
        (get_betting_lines season (some t) netL stL).result = netL (some t))) ∧
    (get_betting_lines season (some t) netL stL).saved = none := by
  refine ⟨fun data hld => get_games_cached_filter season t ht netG stG data hld,
    get_games_cache_miss season (some t) netG stG,
    (get_games_scoped_no_save season t ht netG stG).1,
    fun data hld => get_team_stats_cached_filter season t ht netS stS data hld,
    get_team_stats_cache_miss season (some t) netS stS,
    (get_team_stats_scoped_no_save season t ht netS stS).1,
    fun data hld => get_betting_lines_cached_filter season t ht netL stL data hld,
    (get_betting_lines_scoped_no_save season t ht netL stL).1⟩

/-- Witness for C6 at a concrete cache: the cached collection holds a
game of team A, so the team-scoped call is served from the cache with no
network contact. -/
theorem team_scoped_cache_filter_witness :
    (get_games "2025" (some "A") (fun _ => [])
      ⟨[("2025_games", [⟨some 1, "A", "B", some 70, some 60, "final"⟩])],
        fun _ => none⟩).result =
      [⟨some 1, "A", "B", some 70, some 60, "final"⟩] ∧
    (get_games "2025" (some "A") (fun _ => [])
      ⟨[("2025_games", [⟨some 1, "A", "B", some 70, some 60, "final"⟩])],
        fun _ => none⟩).networkUsed = false := by
  have h := ((team_scoped_cache_filter "2025" "A" (by decide)
      (fun _ => [])
      ⟨[("2025_games", [⟨some 1, "A", "B", some 70, some 60, "final"⟩])],
        fun _ => none⟩
      (fun _ => []) ⟨[], fun _ => none⟩
      (fun _ => []) ⟨[], fun _ => none⟩).1
    [⟨some 1, "A", "B", some 70, some 60, "final"⟩] rfl).1 (by decide)
  rw [h]
  exact ⟨rfl, rfl⟩

/- ### Claim C9 -/

/-- C9 counterexample: a worker-side team-scoped call on a fresh memory
cache with a matching disk file mutates `self.cache` — the load
populates the memory tier from disk inside the worker — refuting "the
in-memory cache mapping is never mutated during the parallel phase". -/
theorem parallel_phase_cache_mutation_counterexample :
    (get_team_stats "2025" (some "A") (fun _ => [])
      ⟨[], fun k => if k = "2025_team_stats" then some [⟨"A", []⟩] else none⟩).st.mem =
      [("2025_team_stats", [⟨"A", []⟩])] ∧
    ([] : List (String × List TeamStat)) ≠ [("2025_team_stats", [⟨"A", []⟩])] := by
  refine ⟨rfl, ?_⟩
  intro h
  cases h

/-- C9 (amended): no worker-side accessor call (non-empty team) ever
calls `_save_to_cache` — each leaves the cache exactly as
`_load_cached_data` left it — and that load either leaves the memory
mapping unchanged or only copies the on-disk entry for the key into it
(so fetched data is never written to the cache inside the parallel
phase, but a disk hit does populate the memory cache from a worker). -/
theorem parallel_phase_no_cache_saves (season t : String) (ht : t ≠ "")
    (netG : Option String → List Game) (stG : CacheSt (List Game))
    (netS : Option String → List TeamStat) (stS : CacheSt (List TeamStat))
    (netL : Option String → List BettingLine) (stL : CacheSt (List BettingLine))
    (netAdj netSrs : Option String → List Val)
    (stR : CacheSt (List RatingsCacheRec)) :
    (get_games season (some t) netG stG).saved = none ∧
    (get_games season (some t) netG stG).st =
      (load_cached_data "games" season stG).2 ∧
    (get_team_stats season (some t) netS stS).saved = none ∧
    (get_team_stats season (some t) netS stS).st =
      (load_cached_data "team_stats" season stS).2 ∧
    (get_betting_lines season (some t) netL stL).saved = none ∧
    (get_betting_lines season (some t) netL stL).st =
      (load_cached_data "betting_lines" season stL).2 ∧
    (get_team_ratings season (some t) netAdj netSrs stR).saved = none ∧
    (get_team_ratings season (some t) netAdj netSrs stR).st =
      (load_cached_data "ratings" season stR).2 ∧
    (∀ (α : Type) (dataType : String) (st : CacheSt α),
      ((load_cached_data dataType season st).2.mem = st.mem ∨
        ∃ d, dictGet st.mem (season ++ "_" ++ dataType) = none ∧
          st.disk (season ++ "_" ++ dataType) = some d ∧
          (load_cached_data dataType season st).2.mem =
            dictInsert st.mem (season ++ "_" ++ dataType) d) ∧
      (load_cached_data dataType season st).2.disk = st.disk) := by
  obtain ⟨h1, h2⟩ := get_games_scoped_no_save season t ht netG stG
  obtain ⟨h3, h4⟩ := get_team_stats_scoped_no_save season t ht netS stS
  obtain ⟨h5, h6⟩ := get_betting_lines_scoped_no_save season t ht netL stL
  obtain ⟨h7, h8⟩ := get_team_ratings_scoped_no_save season t ht netAdj netSrs stR
  exact ⟨h1, h2, h3, h4, h5, h6, h7, h8,
    fun α dataType st => load_cached_data_spec dataType season st⟩

/-- Witness for C9: a concrete worker-side call performs no cache save
and leaves the (empty-disk) cache untouched. -/
theorem parallel_phase_no_cache_saves_witness :
    (get_games "2025" (some "A") (fun _ => [])
      ⟨[], fun _ => none⟩).saved = none ∧
    (get_games "2025" (some "A") (fun _ => [])
      ⟨[], fun _ => none⟩).st =
      (load_cached_data "games" "2025" ⟨[], fun _ => none⟩).2 := by
  have h := parallel_phase_no_cache_saves "2025" "A" (by decide)
    (fun _ => []) ⟨[], fun _ => none⟩
    (fun _ => []) ⟨[], fun _ => none⟩
    (fun _ => []) ⟨[], fun _ => none⟩
    (fun _ => []) (fun _ => []) ⟨[], fun _ => none⟩
  exact ⟨h.1, h.2.1⟩

/- ### Claim C3 -/

theorem mem_dictInsert_keys {α : Type} (m : List (String × α)) (k : String)
    (v : α) : ∀ p ∈ dictInsert m k v, p.1 = k ∨ p ∈ m := by
  intro p hp
  unfold dictInsert at hp
  by_cases h : m.any (fun q => q.1 = k)
  · rw [if_pos h] at hp
    rcases List.mem_map.mp hp with ⟨q, hq, hfq⟩
    by_cases hqk : q.1 = k
    · rw [if_pos hqk] at hfq
      left
      rw [← hfq]
    · rw [if_neg hqk] at hfq
      right
      rw [← hfq]
      exact hq
  · rw [if_neg h] at hp
    rcases List.mem_append.mp hp with hq | hq
    · exact Or.inr hq
    · left
      rcases List.mem_singleton.mp hq with rfl
      rfl

theorem parallelFetchAux_keys {α : Type} (fetch : String → α) (truthy : α → Bool)
    (t : String) (hf : truthy (fetch t) = false) :
    ∀ (teams : List Team) (acc : List (String × α)),
      (∀ p ∈ acc, p.1 ≠ t) →
      ∀ p ∈ parallelFetchAux fetch truthy teams acc, p.1 ≠ t := by
  intro teams
  induction teams with
  | nil => intro acc hacc p hp; exact hacc p hp
  | cons tm rest ih =>
      intro acc hacc p hp
      cases hs : tm.school with
      | none =>
          simp only [parallelFetchAux, hs] at hp
          exact ih acc hacc p hp
      | some name =>
          simp only [parallelFetchAux, hs] at hp
          by_cases hc : name ≠ "" ∧ truthy (fetch name)
          · rw [if_pos hc] at hp
            have hnt : name ≠ t := by
              intro h
              subst h
              rw [hf] at hc
              exact Bool.false_ne_true hc.2
            refine ih (dictInsert acc name (fetch name)) ?_ p hp
            intro q hq
            rcases mem_dictInsert_keys acc name (fetch name) q hq with h | h
            · rw [h]; exact hnt
            · exact hacc q h
          · rw [if_neg hc] at hp
            exact ih acc hacc p hp

theorem parallelFetchAux_filter_ne {α : Type} (fetch : String → α)
    (truthy : α → Bool) (t : String) (hf : truthy (fetch t) = false) :
    ∀ (teams : List Team) (acc : List (String × α)),
      parallelFetchAux fetch truthy teams acc =
        parallelFetchAux fetch truthy
          (teams.filter (fun tm => tm.school ≠ some t)) acc := by
  intro teams
  induction teams with
  | nil => intro acc; rfl
  | cons tm rest ih =>
      intro acc
      cases hs : tm.school with
      | none =>
          have hkeep : (decide (tm.school ≠ some t)) = true := by simp [hs]
          rw [List.filter_cons, if_pos hkeep]
          simp only [parallelFetchAux, hs]
          exact ih acc
      | some name =>
          by_cases hnt : name = t
          · subst hnt
            have hdrop : (decide (tm.school ≠ some name)) = false := by simp [hs]
            have hc : ¬ (name ≠ "" ∧ truthy (fetch name)) := by
              rintro ⟨-, h2⟩
              rw [hf] at h2
              exact Bool.false_ne_true h2
            rw [List.filter_cons, if_neg (by simp [hs] : ¬ (decide (tm.school ≠ some name)) = true)]
            simp only [parallelFetchAux, hs]
            rw [if_neg hc]
            exact ih acc
          · have hkeep : (decide (tm.school ≠ some t)) = true := by simp [hs, hnt]
            rw [List.filter_cons, if_pos hkeep]
            simp only [parallelFetchAux, hs]
            by_cases hc : name ≠ "" ∧ truthy (fetch name)
            · rw [if_pos hc, if_pos hc]
              exact ih _
            · rw [if_neg hc, if_neg hc]
              exact ih acc

/-- C3 counterexample: a team absent from the team-stats API response
yields an empty accessor result, is dropped from the per-team results
map (the `if team_name and data:` guard), and contributes ZERO rows to
the merged team-stats output — not the claimed one skeleton row. -/
theorem stats_no_skeleton_counterexample :
    (get_team_stats "2025" (some "A") (fun _ => [])
      ⟨[], fun _ => none⟩).result = [] ∧
    parallel_fetch [⟨some "A"⟩] (fun _ => ([] : List TeamStat))
      (fun d => !d.isEmpty) = [] ∧
    mergeStats ((parallel_fetch [⟨some "A"⟩] (fun _ => ([] : List TeamStat))
      (fun d => !d.isEmpty)).map Prod.snd) = [] := by
  exact ⟨rfl, rfl, rfl⟩

/-- C3 (amended): a team whose team-stats fetch returns the empty list
(the accessor result when the API has no matching entry) never appears
as a key of the per-team results map, and the merged team-stats output
is exactly what it would be with that team removed from the roster —
the team contributes zero rows, with no skeleton fallback. -/
theorem stats_absent_team_zero_rows (teams : List Team)
    (fetch : String → List TeamStat) (t : String) (hf : fetch t = []) :
    (∀ p ∈ parallel_fetch teams fetch (fun d => !d.isEmpty), p.1 ≠ t) ∧
    mergeStats ((parallel_fetch teams fetch (fun d => !d.isEmpty)).map Prod.snd) =
      mergeStats ((parallel_fetch (teams.filter (fun tm => tm.school ≠ some t))
        fetch (fun d => !d.isEmpty)).map Prod.snd) := by
  have htr : (fun d : List TeamStat => !d.isEmpty) (fetch t) = false := by
    simp [hf]
  constructor
  · exact parallelFetchAux_keys fetch _ t htr teams [] (by simp)
  · rw [parallel_fetch, parallel_fetch,
      parallelFetchAux_filter_ne fetch _ t htr teams []]

/-- Witness for C3 at a one-team roster whose stats fetch is empty. -/
theorem stats_absent_team_zero_rows_witness :
    (∀ p ∈ parallel_fetch [⟨some "A"⟩] (fun _ => ([] : List TeamStat))
      (fun d => !d.isEmpty), p.1 ≠ "A") ∧
    mergeStats ((parallel_fetch [⟨some "A"⟩] (fun _ => ([] : List TeamStat))
      (fun d => !d.isEmpty)).map Prod.snd) =
      mergeStats ((parallel_fetch ([⟨some "A"⟩].filter
        (fun tm => tm.school ≠ some "A")) (fun _ => ([] : List TeamStat))
        (fun d => !d.isEmpty)).map Prod.snd) :=
  stats_absent_team_zero_rows [⟨some "A"⟩] (fun _ => []) "A" rfl

/- ### Dict / flatten lemmas for the flattening claims -/

theorem mem_dictInsert {α : Type} (m : List (String × α)) (k : String) (v : α) :
    ∀ p ∈ dictInsert m k v, p = (k, v) ∨ p ∈ m := by
  intro p hp
  unfold dictInsert at hp
  by_cases h : m.any (fun q => q.1 = k)
  · rw [if_pos h] at hp
    rcases List.mem_map.mp hp with ⟨q, hq, hfq⟩
    by_cases hqk : q.1 = k
    · rw [if_pos hqk] at hfq
      exact Or.inl hfq.symm
    · rw [if_neg hqk] at hfq
      exact Or.inr (hfq ▸ hq)
  · rw [if_neg h] at hp
    rcases List.mem_append.mp hp with hq | hq
    · exact Or.inr hq
    · exact Or.inl (List.mem_singleton.mp hq)

theorem dictInsert_not_has {α : Type} (m : List (String × α)) (k : String) (v : α)
    (h : m.any (fun q => q.1 = k) = false) : dictInsert m k v = m ++ [(k, v)] := by
  unfold dictInsert
  rw [if_neg (by simp [h])]

theorem dictInsert_keys_nodup {α : Type} (m : List (String × α)) (k : String)
    (v : α) (h : (m.map Prod.fst).Nodup) :
    ((dictInsert m k v).map Prod.fst).Nodup := by
  unfold dictInsert
  by_cases hany : m.any (fun q => q.1 = k)
  · rw [if_pos hany, List.map_map]
    have : m.map (Prod.fst ∘ fun p => if p.1 = k then (k, v) else p) =
        m.map Prod.fst := by
      apply List.map_congr_left
      intro p _
      by_cases hp : p.1 = k <;> simp [hp, Function.comp]
    rw [this]
    exact h
  · rw [if_neg hany, List.map_append]
    have hk : k ∉ m.map Prod.fst := by
      intro hmem
      rcases List.mem_map.mp hmem with ⟨q, hq, hqk⟩
      have : m.any (fun q => q.1 = k) = true :=
        List.any_eq_true.mpr ⟨q, hq, by simp [hqk]⟩
      rw [this] at hany
      exact hany rfl
    simp only [List.map_cons, List.map_nil]
    exact List.Nodup.append h (List.nodup_singleton k)
      (by simpa [List.disjoint_singleton] using hk)

theorem mem_dictUpdate {α : Type} (m other : List (String × α)) :
    ∀ p ∈ dictUpdate m other, p ∈ m ∨ p ∈ other := by
  induction other generalizing m with
  | nil => intro p hp; exact Or.inl hp
  | cons q rest ih =>
      intro p hp
      rw [dictUpdate, List.foldl_cons] at hp
      rcases ih (dictInsert m q.1 q.2) p hp with h | h
      · rcases mem_dictInsert m q.1 q.2 p h with h2 | h2
        · right
          rw [h2]
          exact List.mem_cons_self _ _
        · exact Or.inl h2
      · exact Or.inr (List.mem_cons_of_mem _ h)

theorem dictUpdate_keys_nodup {α : Type} (m other : List (String × α))
    (h : (m.map Prod.fst).Nodup) : ((dictUpdate m other).map Prod.fst).Nodup := by
  induction other generalizing m with
  | nil => exact h
  | cons q rest ih =>
      rw [dictUpdate, List.foldl_cons]
      exact ih (dictInsert m q.1 q.2) (dictInsert_keys_nodup m q.1 q.2 h)

theorem dictUpdate_disjoint {α : Type} (other : List (String × α)) :
    ∀ m : List (String × α), (other.map Prod.fst).Nodup →
      (∀ k ∈ other.map Prod.fst, m.any (fun q => q.1 = k) = false) →
      dictUpdate m other = m ++ other := by
  induction other with
  | nil => intro m _ _; simp [dictUpdate]
  | cons q rest ih =>
      intro m hnd hdis
      rw [dictUpdate, List.foldl_cons,
        dictInsert_not_has m q.1 q.2 (hdis q.1 (by simp))]
      have hnd2 : (q.1 :: rest.map Prod.fst).Nodup := by simpa using hnd
      obtain ⟨hq1, hrestnd⟩ := List.nodup_cons.mp hnd2
      have hstep := ih (m ++ [(q.1, q.2)]) hrestnd
        (by
          intro k hk
          have h1 : m.any (fun p => p.1 = k) = false :=
            hdis k (by simp [hk])
          have h2 : ¬ q.1 = k := fun he => hq1 (he ▸ hk)
          simp [List.any_append, h1, h2])
      rw [dictUpdate] at hstep
      rw [hstep]
      simp

theorem dictUpdate_nil_left {α : Type} (other : List (String × α))
    (h : (other.map Prod.fst).Nodup) : dictUpdate [] other = other := by
  rw [dictUpdate_disjoint other [] h (by intro k _; rfl)]
  rfl

/-- The string `a ++ "_" ++ b` is never empty. -/
theorem append_underscore_ne_empty (a b : String) : a ++ "_" ++ b ≠ "" := by
  intro h
  have h2 := congrArg String.length h
  rw [String.length_append, String.length_append] at h2
  have h3 : ("_" : String).length = 1 := rfl
  have h4 : ("" : String).length = 0 := rfl
  rw [h3, h4] at h2
  omega

theorem flattenAux_invariant (d : List (String × Val)) (pk : String)
    (items : List (String × Val)) :
    (∀ p ∈ items, isScalar p.2 = true) → (items.map Prod.fst).Nodup →
      (∀ p ∈ flattenAux d pk items, isScalar p.2 = true) ∧
        ((flattenAux d pk items).map Prod.fst).Nodup := by
  induction d, pk, items using flattenAux.induct with
  | case1 pk items =>
      intro h1 h2
      rw [flattenAux]
      exact ⟨h1, h2⟩
  | case2 k rest pk items nk ih =>
      intro h1 h2
      rw [flattenAux]
      refine ih ?_ (dictInsert_keys_nodup _ _ _ h2)
      intro p hp
      rcases mem_dictInsert _ _ _ p hp with h | h
      · rw [h]; rfl
      · exact h1 p h
  | case3 k rest pk items nk fields ihInner ihInner2 ihRest =>
      intro h1 h2
      rw [flattenAux]
      have hinner := ihInner (by intro p hp; cases hp) (by simp)
      refine ihRest ?_ (dictUpdate_keys_nodup _ _ h2)
      intro p hp
      rcases mem_dictUpdate _ _ p hp with h | h
      · exact h1 p h
      · exact hinner.1 p h
  | case4 k rest pk items nk elems hsc ih =>
      intro h1 h2
      rw [flattenAux, if_pos hsc]
      refine ih ?_ (dictInsert_keys_nodup _ _ _ h2)
      intro p hp
      rcases mem_dictInsert _ _ _ p hp with h | h
      · rw [h]; rfl
      · exact h1 p h
  | case5 k rest pk items nk elems hsc ih =>
      intro h1 h2
      rw [flattenAux, if_neg hsc]
      refine ih ?_ (dictInsert_keys_nodup _ _ _ h2)
      intro p hp
      rcases mem_dictInsert _ _ _ p hp with h | h
      · rw [h]; rfl
      · exact h1 p h
  | case6 k rest pk items nk x hx1 hx2 hx3 ih =>
      intro h1 h2
      have hxs : isScalar x = true := by
        cases x with
        | vnull => exact absurd rfl hx1
        | vobj fields => exact absurd rfl (hx2 fields)
        | vlist elems => exact absurd rfl (hx3 elems)
        | vbool b => rfl
        | vint n => rfl
        | vstr s => rfl
      have hstep : ∀ p ∈ flattenAux rest pk
          (dictInsert items (if pk = "" then k else pk ++ "_" ++ k) x),
            isScalar p.2 = true := by
        intro p hp
        exact ((ih (by
          intro q hq
          rcases mem_dictInsert _ _ _ q hq with h | h
          · rw [h]; exact hxs
          · exact h1 q h) (dictInsert_keys_nodup _ _ _ h2)).1) p hp
      cases x with
      | vnull => exact absurd rfl hx1
      | vobj fields => exact absurd rfl (hx2 fields)
      | vlist elems => exact absurd rfl (hx3 elems)
      | vbool b =>
          simp only [flattenAux]
          exact ⟨hstep, (ih (by
            intro q hq
            rcases mem_dictInsert _ _ _ q hq with h | h
            · rw [h]; rfl
            · exact h1 q h) (dictInsert_keys_nodup _ _ _ h2)).2⟩
      | vint n =>
          simp only [flattenAux]
          exact ⟨hstep, (ih (by
            intro q hq
            rcases mem_dictInsert _ _ _ q hq with h | h
            · rw [h]; rfl
            · exact h1 q h) (dictInsert_keys_nodup _ _ _ h2)).2⟩
      | vstr s =>
          simp only [flattenAux]
          exact ⟨hstep, (ih (by
            intro q hq
            rcases mem_dictInsert _ _ _ q hq with h | h
            · rw [h]; rfl
            · exact h1 q h) (dictInsert_keys_nodup _ _ _ h2)).2⟩

theorem flattenAux_key_prefix (d : List (String × Val)) (pk : String)
    (items : List (String × Val)) :
    pk ≠ "" → (∀ p ∈ items, ∃ s, p.1 = pk ++ "_" ++ s) →
      ∀ p ∈ flattenAux d pk items, ∃ s, p.1 = pk ++ "_" ++ s := by
  induction d, pk, items using flattenAux.induct with
  | case1 pk items =>
      intro _ h p hp
      rw [flattenAux] at hp
      exact h p hp
  | case2 k rest pk items nk ih =>
      intro hpk h p hp
      have hnk : nk = pk ++ "_" ++ k := dif_neg hpk
      rw [flattenAux] at hp
      refine ih hpk ?_ p hp
      intro q hq
      rcases mem_dictInsert _ _ _ q hq with hh | hh
      · exact ⟨k, by rw [hh]; exact hnk⟩
      · exact h q hh
  | case3 k rest pk items nk fields ihInner ihInner2 ihRest =>
      intro hpk h p hp
      have hnk : nk = pk ++ "_" ++ k := dif_neg hpk
      rw [flattenAux] at hp
      refine ihRest hpk ?_ p hp
      intro q hq
      rcases mem_dictUpdate _ _ q hq with hh | hh
      · exact h q hh
      · have hinner := ihInner
          (by rw [hnk]; exact append_underscore_ne_empty pk k)
          (by intro r hr; cases hr) q hh
        rcases hinner with ⟨s, hs⟩
        rw [hnk] at hs
        refine ⟨k ++ "_" ++ s, ?_⟩
        rw [hs]
        simp [String.append_assoc]
  | case4 k rest pk items nk elems hsc ih =>
      intro hpk h p hp
      have hnk : nk = pk ++ "_" ++ k := dif_neg hpk
      rw [flattenAux, if_pos hsc] at hp
      refine ih hpk ?_ p hp
      intro q hq
      rcases mem_dictInsert _ _ _ q hq with hh | hh
      · exact ⟨k, by rw [hh]; exact hnk⟩
      · exact h q hh
  | case5 k rest pk items nk elems hsc ih =>
      intro hpk h p hp
      have hnk : nk = pk ++ "_" ++ k := dif_neg hpk
      rw [flattenAux, if_neg hsc] at hp
      refine ih hpk ?_ p hp
      intro q hq
      rcases mem_dictInsert _ _ _ q hq with hh | hh
      · exact ⟨k, by rw [hh]; exact hnk⟩
      · exact h q hh
  | case6 k rest pk items nk x hx1 hx2 hx3 ih =>
      intro hpk h p hp
      have hnk : nk = pk ++ "_" ++ k := dif_neg hpk
      have hnext : ∀ q ∈ dictInsert items nk x, ∃ s, q.1 = pk ++ "_" ++ s := by
        intro q hq
        rcases mem_dictInsert _ _ _ q hq with hh | hh
        · exact ⟨k, by rw [hh]; exact hnk⟩
        · exact h q hh
      cases x with
      | vnull => exact absurd rfl hx1
      | vobj fields => exact absurd rfl (hx2 fields)
      | vlist elems => exact absurd rfl (hx3 elems)
      | vbool b =>
          simp only [flattenAux] at hp
          exact ih hpk hnext p hp
      | vint n =>
          simp only [flattenAux] at hp
          exact ih hpk hnext p hp
      | vstr s =>
          simp only [flattenAux] at hp
          exact ih hpk hnext p hp

theorem flattenAux_flat (d : List (String × Val)) :
    (∀ p ∈ d, isScalar p.2 = true) → (d.map Prod.fst).Nodup →
      ∀ items : List (String × Val),
        (∀ k ∈ d.map Prod.fst, items.any (fun p => p.1 = k) = false) →
        flattenAux d "" items = items ++ d := by
  induction d with
  | nil =>
      intro _ _ items _
      rw [flattenAux]
      simp
  | cons q rest ih =>
      intro hsc hnd items hdis
      obtain ⟨k, v⟩ := q
      have hvs : isScalar v = true := hsc (k, v) (List.mem_cons_self _ _)
      have hins : dictInsert items k v = items ++ [(k, v)] :=
        dictInsert_not_has items k v (hdis k (by simp))
      have hnd2 : (k :: rest.map Prod.fst).Nodup := by simpa using hnd
      obtain ⟨hknotrest, hrestnd⟩ := List.nodup_cons.mp hnd2
      have hrestsc : ∀ p ∈ rest, isScalar p.2 = true :=
        fun p hp => hsc p (List.mem_cons_of_mem _ hp)
      have hrestdis : ∀ k2 ∈ rest.map Prod.fst,
          (items ++ [(k, v)]).any (fun p => p.1 = k2) = false := by
        intro k2 hk2
        have h1 : items.any (fun p => p.1 = k2) = false :=
          hdis k2 (by simp [hk2])
        have h2 : ¬ k = k2 := fun he => hknotrest (he ▸ hk2)
        simp [List.any_append, h1, h2]
      have hstep := ih hrestsc hrestnd (items ++ [(k, v)]) hrestdis
      cases v with
      | vnull => exact absurd hvs (by simp [isScalar])
      | vobj fields => exact absurd hvs (by simp [isScalar])
      | vlist elems => exact absurd hvs (by simp [isScalar])
      | vbool b =>
          simp only [flattenAux, reduceIte]
          rw [hins, hstep]
          simp
      | vint n =>
          simp only [flattenAux, reduceIte]
          rw [hins, hstep]
          simp
      | vstr s =>
          simp only [flattenAux, reduceIte]
          rw [hins, hstep]
          simp

/- ### Claim C7 -/

/-- C7: the flattening rules of `flatten_data` — a nested mapping is
expanded in place with `_`-joined keys (every produced key extends the
outer key), a list of scalars becomes a comma-joined string, a list
containing a non-scalar becomes its JSON serialization, `None` becomes
the empty string — flattening is the identity on already-flat rows
(scalar values, distinct keys), and `flatten_data` is idempotent on
every record. -/
theorem flatten_rules_and_idempotent :
    (∀ (k : String) (fields : List (String × Val)),
      flatten_data [(k, .vobj fields)] = flattenAux fields k [] ∧
      (k ≠ "" → ∀ p ∈ flattenAux fields k [], ∃ s, p.1 = k ++ "_" ++ s)) ∧
    (∀ (k : String) (elems : List Val), elems.all isScalar = true →
      flatten_data [(k, .vlist elems)] =
        [(k, .vstr (String.intercalate "," (elems.map pyStr)))]) ∧
    (∀ (k : String) (elems : List Val), elems.all isScalar = false →
      flatten_data [(k, .vlist elems)] =
        [(k, .vstr (jsonDumps (.vlist elems)))]) ∧
    (∀ k : String, flatten_data [(k, .vnull)] = [(k, .vstr "")]) ∧
    (∀ d : List (String × Val), (∀ p ∈ d, isScalar p.2 = true) →
      (d.map Prod.fst).Nodup → flatten_data d = d) ∧
    (∀ d : List (String × Val), flatten_data (flatten_data d) = flatten_data d) := by
  have hflat : ∀ d : List (String × Val), (∀ p ∈ d, isScalar p.2 = true) →
      (d.map Prod.fst).Nodup → flatten_data d = d := by
    intro d h1 h2
    rw [flatten_data, flattenAux_flat d h1 h2 [] (by intro k _; rfl)]
    rfl
  refine ⟨?_, ?_, ?_, ?_, hflat, ?_⟩
  · intro k fields
    constructor
    · rw [flatten_data, flattenAux, flattenAux]
      simp only [if_pos rfl]
      exact dictUpdate_nil_left _
        (flattenAux_invariant fields k [] (by intro p hp; cases hp) (by simp)).2
    · intro hk
      exact flattenAux_key_prefix fields k [] hk (by intro p hp; cases hp)
  · intro k elems hsc
    rw [flatten_data, flattenAux]
    simp only [if_pos rfl, hsc, if_true, flattenAux]
    rfl
  · intro k elems hsc
    rw [flatten_data, flattenAux]
    simp only [if_pos rfl, hsc, Bool.false_eq_true, if_false, flattenAux]
    rfl
  · intro k
    simp [flatten_data, flattenAux, dictInsert]
  · intro d
    have hinv := flattenAux_invariant d "" [] (by intro p hp; cases hp) (by simp)
    exact hflat (flatten_data d) hinv.1 hinv.2

/-- Witness for C7: concrete flattenings — a scalar list joins with
commas, a list holding `null` serializes as JSON, a flat row is fixed,
and re-flattening a flattened nested record changes nothing. -/
theorem flatten_rules_witness :
    flatten_data [("a", .vlist [.vint 1, .vint 2])] = [("a", .vstr "1,2")] ∧
    flatten_data [("a", .vlist [.vnull])] = [("a", .vstr "[null]")] ∧
    flatten_data [("b", .vint 7), ("c", .vstr "x")] =
      [("b", .vint 7), ("c", .vstr "x")] ∧
    flatten_data (flatten_data [("o", .vobj [("p", .vint 1)])]) =
      flatten_data [("o", .vobj [("p", .vint 1)])] := by
  obtain ⟨hobj, hlist, hjson, hnull, hflat, hid⟩ := flatten_rules_and_idempotent
  refine ⟨?_, ?_, ?_, hid _⟩
  · rw [hlist "a" [.vint 1, .vint 2] rfl]
    rfl
  · rw [hjson "a" [.vnull] rfl]
    simp [jsonDumps, jsonDumpsList]
  · refine hflat _ ?_ (by decide)
    intro p hp
    simp only [List.mem_cons, List.not_mem_nil, or_false] at hp
    rcases hp with rfl | rfl <;> rfl

/- ### Claim C5 -/

/-- C5 counterexample: on a zero-teams roster the run writes no files,
but the only status the progress sink ever receives is the initial
"Fetching teams list..." — no fatal or terminal status is reported
(the error goes to the log only). -/
theorem zero_teams_no_fatal_status_counterexample :
    (collect_comprehensive_data
      ⟨[], fun _ => [], fun _ => [], fun _ => [], fun _ => ⟨[], []⟩⟩
      "2025" 0).files = [] ∧
    statusTrace (collect_comprehensive_data
      ⟨[], fun _ => [], fun _ => [], fun _ => [], fun _ => ⟨[], []⟩⟩
      "2025" 0) = ["Fetching teams list..."] ∧
    "Error occurred during data collection" ∉
      statusTrace (collect_comprehensive_data
        ⟨[], fun _ => [], fun _ => [], fun _ => [], fun _ => ⟨[], []⟩⟩
        "2025" 0) ∧
    "Data collection complete!" ∉
      statusTrace (collect_comprehensive_data
        ⟨[], fun _ => [], fun _ => [], fun _ => [], fun _ => ⟨[], []⟩⟩
        "2025" 0) := by
  refine ⟨rfl, rfl, ?_, ?_⟩ <;> decide

/-- C5 (amended): a run whose roster comes back empty terminates right
after the initial progress update: it writes no data files, and the
progress sink receives exactly one status string — the initial
"Fetching teams list..." — so no fatal/terminal status is reported. -/
theorem zero_teams_terminates_silently (env : CollectEnv) (season : String)
    (maxTeams : Nat) (h : env.teams = []) :
    (collect_comprehensive_data env season maxTeams).files = [] ∧
    statusTrace (collect_comprehensive_data env season maxTeams) =
      ["Fetching teams list..."] := by
  have hempty : env.teams.isEmpty = true := by simp [h]
  constructor <;> simp [collect_comprehensive_data, hempty, statusTrace]

/-- Witness for C5 at a concrete empty-roster environment. -/
theorem zero_teams_terminates_silently_witness :
    (collect_comprehensive_data
      ⟨[], fun _ => [], fun _ => [], fun _ => [], fun _ => ⟨[], []⟩⟩
      "2024" 3).files = [] ∧
    statusTrace (collect_comprehensive_data
      ⟨[], fun _ => [], fun _ => [], fun _ => [], fun _ => ⟨[], []⟩⟩
      "2024" 3) = ["Fetching teams list..."] :=
  zero_teams_terminates_silently
    ⟨[], fun _ => [], fun _ => [], fun _ => [], fun _ => ⟨[], []⟩⟩ "2024" 3 rfl

/- ### Claim C8 lemmas -/

theorem dictHas_dictInsert_self {α : Type} (m : List (String × α)) (k : String)
    (v : α) : dictHas (dictInsert m k v) k = true := by
  unfold dictHas dictInsert
  by_cases h : m.any (fun q => q.1 = k)
  · rw [if_pos h]
    rcases List.any_eq_true.mp h with ⟨q, hq, hqk⟩
    refine List.any_eq_true.mpr ⟨(k, v), List.mem_map.mpr ⟨q, hq, ?_⟩, by simp⟩
    rw [if_pos (by simpa using hqk)]
  · rw [if_neg h]
    exact List.any_eq_true.mpr ⟨(k, v), by simp⟩

theorem dictHas_dictInsert_mono {α : Type} (m : List (String × α)) (k k2 : String)
    (v : α) (h : dictHas m k2 = true) : dictHas (dictInsert m k v) k2 = true := by
  unfold dictHas dictInsert
  unfold dictHas at h
  rcases List.any_eq_true.mp h with ⟨q, hq, hqk⟩
  by_cases hany : m.any (fun q => q.1 = k)
  · rw [if_pos hany]
    by_cases hqk2 : q.1 = k
    · refine List.any_eq_true.mpr ⟨(k, v), List.mem_map.mpr ⟨q, hq, ?_⟩, ?_⟩
      · rw [if_pos hqk2]
      · have : k = k2 := by
          rw [← hqk2]
          simpa using hqk
        simp [this]
    · refine List.any_eq_true.mpr ⟨q, List.mem_map.mpr ⟨q, hq, ?_⟩, hqk⟩
      rw [if_neg hqk2]
  · rw [if_neg hany]
    exact List.any_eq_true.mpr ⟨q, List.mem_append_left _ hq, hqk⟩

theorem padWith_has (fill : Val) (headers : List String) :
    ∀ (row : List (String × Val)) (h : String),
      (dictHas row h = true ∨ h ∈ headers) →
      dictHas (padWith fill headers row) h = true := by
  induction headers with
  | nil =>
      intro row h hyp
      rcases hyp with hyp | hyp
      · exact hyp
      · cases hyp
  | cons hd rest ih =>
      intro row h hyp
      rw [padWith, List.foldl_cons]
      have hstep : ∀ row2 : List (String × Val),
          padWith fill rest row2 = List.foldl
            (fun item h2 => if dictHas item h2 then item else dictInsert item h2 fill)
            row2 rest := fun _ => rfl
      rw [← hstep]
      by_cases hh : dictHas row hd
      · rw [if_pos hh]
        rcases hyp with hyp | hyp
        · exact ih row h (Or.inl hyp)
        · rcases List.mem_cons.mp hyp with rfl | hyp2
          · exact ih row h (Or.inl hh)
          · exact ih row h (Or.inr hyp2)
      · rw [if_neg hh]
        rcases hyp with hyp | hyp
        · exact ih _ h (Or.inl (dictHas_dictInsert_mono row hd h fill hyp))
        · rcases List.mem_cons.mp hyp with rfl | hyp2
          · exact ih _ h (Or.inl (dictHas_dictInsert_self row h fill))
          · exact ih _ h (Or.inr hyp2)

theorem padWith_spec (fill : Val) (headers : List String) :
    ∀ row : List (String × Val), ∃ extra,
      padWith fill headers row = row ++ extra ∧
      ∀ p ∈ extra, p.2 = fill ∧ p.1 ∈ headers := by
  induction headers with
  | nil =>
      intro row
      exact ⟨[], by simp [padWith], by simp⟩
  | cons hd rest ih =>
      intro row
      rw [padWith, List.foldl_cons]
      have hstep : ∀ row2 : List (String × Val),
          padWith fill rest row2 = List.foldl
            (fun item h2 => if dictHas item h2 then item else dictInsert item h2 fill)
            row2 rest := fun _ => rfl
      rw [← hstep]
      by_cases hh : dictHas row hd
      · rw [if_pos hh]
        rcases ih row with ⟨extra, he, hp⟩
        exact ⟨extra, he, fun p hp2 =>
          ⟨(hp p hp2).1, List.mem_cons_of_mem _ (hp p hp2).2⟩⟩
      · rw [if_neg hh]
        have hins : dictInsert row hd fill = row ++ [(hd, fill)] :=
          dictInsert_not_has row hd fill (Bool.not_eq_true _ ▸ hh)
        rw [hins]
        rcases ih (row ++ [(hd, fill)]) with ⟨extra, he, hp⟩
        refine ⟨(hd, fill) :: extra, by rw [he]; simp, ?_⟩
        intro p hp2
        rcases List.mem_cons.mp hp2 with rfl | hp3
        · exact ⟨rfl, List.mem_cons_self _ _⟩
        · exact ⟨(hp p hp3).1, List.mem_cons_of_mem _ (hp p hp3).2⟩

theorem mem_headerSet (rows : List (List (String × Val))) (h : String) :
    h ∈ headerSet rows ↔ ∃ row ∈ rows, ∃ p ∈ row, p.1 = h := by
  unfold headerSet
  rw [List.mem_dedup, List.mem_flatten]
  constructor
  · rintro ⟨l, hl, hmem⟩
    rcases List.mem_map.mp hl with ⟨row, hrow, rfl⟩
    rcases List.mem_map.mp hmem with ⟨p, hp, hph⟩
    exact ⟨row, hrow, p, hp, hph⟩
  · rintro ⟨row, hrow, p, hp, hph⟩
    exact ⟨row.map Prod.fst, List.mem_map.mpr ⟨row, hrow, rfl⟩,
      List.mem_map.mpr ⟨p, hp, hph⟩⟩

theorem mem_sortStrings (l : List String) (h : String) :
    h ∈ sortStrings l ↔ h ∈ l :=
  (List.perm_insertionSort _ _).mem_iff

theorem sorted_sortStrings (l : List String) :
    List.Sorted (· ≤ ·) (sortStrings l) :=
  List.sorted_insertionSort _ _

theorem mem_csv_headers (rows : List (List (String × Val))) (h : String) :
    h ∈ csv_headers rows ↔ h ∈ headerSet rows := by
  unfold csv_headers
  rw [List.mem_append, List.mem_filter, mem_sortStrings, List.mem_filter]
  constructor
  · rintro (⟨-, hc⟩ | ⟨hc, -⟩)
    · simpa using hc
    · exact hc
  · intro hmem
    by_cases hp : h ∈ priority_headers
    · exact Or.inl ⟨hp, by simpa using hmem⟩
    · exact Or.inr ⟨hmem, by simpa using hp⟩

/- ### Claim C8 -/

/-- C8 counterexample: the per-team games saver sorts ALL headers
alphabetically — when a row carries a `season` key together with a key
that sorts before it, `season` is not forced first, so the claimed
priority-prefix order does not hold for every written collection. -/
theorem team_csv_headers_no_priority_counterexample :
    team_csv_headers [[("season", .vint 1), ("id", .vint 2)]] =
      ["id", "season"] ∧
    csv_headers [[("season", .vint 1), ("id", .vint 2)]] = ["season", "id"] ∧
    (["id", "season"] : List String) ≠ ["season", "id"] := by
  refine ⟨?_, ?_, by decide⟩
  · simp [team_csv_headers, headerSet, sortStrings, List.insertionSort,
      List.orderedInsert]
    all_goals decide
  · simp [csv_headers, headerSet, priority_headers, sortStrings,
      List.insertionSort, List.orderedInsert]

/-- C8 (amended): for the season-wide saver the CSV header list is the
priority headers that occur (in the fixed order `team, season,
conference`) followed by the remaining keys sorted; its membership is
exactly the union of all flattened row keys; every padded row contains
every header, with the added entries carrying `None`.  The per-team
games saver instead sorts ALL keys alphabetically (no priority prefix)
and pads missing entries with the empty string. -/
theorem csv_headers_and_padding (rows : List (List (String × Val))) :
    (csv_headers rows =
      priority_headers.filter (fun h => decide (h ∈ headerSet rows)) ++
        sortStrings ((headerSet rows).filter
          (fun h => decide (h ∉ priority_headers)))) ∧
    List.Sorted (· ≤ ·) (sortStrings ((headerSet rows).filter
      (fun h => decide (h ∉ priority_headers)))) ∧
    (∀ h : String, h ∈ csv_headers rows ↔ ∃ row ∈ rows, ∃ p ∈ row, p.1 = h) ∧
    (∀ (row : List (String × Val)) (h : String), h ∈ csv_headers rows →
      dictHas (padRow (csv_headers rows) row) h = true) ∧
    (∀ row : List (String × Val), ∃ extra,
      padRow (csv_headers rows) row = row ++ extra ∧
      ∀ p ∈ extra, p.2 = .vnull ∧ p.1 ∈ csv_headers rows) ∧
    team_csv_headers rows = sortStrings (headerSet rows) ∧
    List.Sorted (· ≤ ·) (team_csv_headers rows) ∧
    (∀ h : String, h ∈ team_csv_headers rows ↔ ∃ row ∈ rows, ∃ p ∈ row, p.1 = h) ∧
    (∀ (row : List (String × Val)) (h : String), h ∈ team_csv_headers rows →
      dictHas (padRowTeam (team_csv_headers rows) row) h = true) ∧
    (∀ row : List (String × Val), ∃ extra,
      padRowTeam (team_csv_headers rows) row = row ++ extra ∧
      ∀ p ∈ extra, p.2 = .vstr "" ∧ p.1 ∈ team_csv_headers rows) := by
  refine ⟨?_, sorted_sortStrings _, ?_, ?_, ?_, rfl, sorted_sortStrings _, ?_, ?_, ?_⟩
  · simp only [csv_headers]
    congr 1
    · apply List.filter_congr
      intro h _
      simp
    · congr 1
      apply List.filter_congr
      intro h _
      simp
  · intro h
    rw [mem_csv_headers, mem_headerSet]
  · intro row h hmem
    exact padWith_has .vnull (csv_headers rows) row h (Or.inr hmem)
  · intro row
    exact padWith_spec .vnull (csv_headers rows) row
  · intro h
    rw [team_csv_headers, mem_sortStrings, mem_headerSet]
  · intro row h hmem
    exact padWith_has (.vstr "") (team_csv_headers rows) row h (Or.inr hmem)
  · intro row
    exact padWith_spec (.vstr "") (team_csv_headers rows) row

/-- Witness for C8 at a concrete collection: the header list puts
`season` first then the rest sorted, and padding fills a missing key
with `None`. -/
theorem csv_headers_and_padding_witness :
    ("id" ∈ csv_headers [[("season", .vint 1), ("id", .vint 2)]] ↔
      ∃ row ∈ [[(("season" : String), Val.vint 1), ("id", .vint 2)]],
        ∃ p ∈ row, p.1 = "id") ∧
    dictHas (padRow (csv_headers [[("season", .vint 1), ("id", .vint 2)]])
      [("season", .vint 1)]) "id" = true := by
  have h := csv_headers_and_padding [[("season", .vint 1), ("id", .vint 2)]]
  refine ⟨h.2.2.1 "id", h.2.2.2.1 [("season", .vint 1)] "id" ?_⟩
  rw [h.2.2.1 "id"]
  exact ⟨[("season", .vint 1), ("id", .vint 2)], by simp, ("id", .vint 2), by simp, rfl⟩

end BBall
